import Mathlib

/-!
Verification development for the feed-acquisition and entity-mapping
pipeline of a real-time transit map application.  The TypeScript source
is embedded shallowly: JavaScript numbers are idealised as elements of a
linear ordered field (rationals or reals), machine maps become
association lists with JavaScript Map semantics, asynchronous fetch
outcomes become explicit oracle functions, and Date.now and Math.random
become explicit parameters.
-/

namespace FindMyTrain

/-- Cardinal direction tag used throughout the domain records
(source: src/data/mta/types.ts, CardinalDirection). -/
inductive CardinalDirection where
  | N | S | E | W | UNK
deriving DecidableEq, Repr

/-- Truncation toward zero, as the JavaScript remainder operator uses
(division rounds toward zero before the multiply-subtract). -/
def jsTrunc {α : Type} [LinearOrderedField α] [FloorRing α] (x : α) : ℤ :=
  if 0 ≤ x then ⌊x⌋ else ⌈x⌉

/-- JavaScript remainder a % b for finite operands: a - b * trunc (a / b). -/
def jsMod {α : Type} [LinearOrderedField α] [FloorRing α] (a b : α) : α :=
  a - b * ((jsTrunc (a / b) : ℤ) : α)

/-- Bearing normalisation from mockTrainFeed: x % 360 then add 360 when
negative (source: wrapBearing). -/
def wrapBearing {α : Type} [LinearOrderedField α] [FloorRing α] (x : α) : α :=
  let normalized := jsMod x 360
  if normalized < 0 then normalized + 360 else normalized

/-- Quadrant rule deriving a cardinal direction from a bearing angle
(source: src/data/mta/mappers/vehicleMapper.ts, cardinalFromBearing). -/
def cardinalFromBearing {α : Type} [LinearOrderedField α] (bearing : α) :
    CardinalDirection :=
  if 315 ≤ bearing ∨ bearing < 45 then .N
  else if 45 ≤ bearing ∧ bearing < 135 then .E
  else if 135 ≤ bearing ∧ bearing < 225 then .S
  else .W

/-- Feed endpoint identifiers (source: src/data/mta/types.ts, enum FeedId).
The URL payload strings are irrelevant to the claims and are dropped. -/
inductive FeedId where
  | Default | ACE | BDFM | G | JZ | L | NQRW | SI
deriving DecidableEq, Repr

/-- Route to feed routing table, in source declaration order
(source: src/data/mta/feeds/feedRegistry.ts, ROUTE_TO_FEED). -/
def ROUTE_TO_FEED : List (String × FeedId) :=
  [("1", .Default), ("2", .Default), ("3", .Default), ("4", .Default),
   ("5", .Default), ("6", .Default), ("6X", .Default), ("7", .Default),
   ("7X", .Default), ("S", .Default), ("GS", .Default),
   ("A", .ACE), ("C", .ACE), ("E", .ACE), ("H", .ACE),
   ("B", .BDFM), ("D", .BDFM), ("F", .BDFM), ("M", .BDFM),
   ("G", .G), ("J", .JZ), ("Z", .JZ), ("L", .L),
   ("N", .NQRW), ("Q", .NQRW), ("R", .NQRW), ("W", .NQRW),
   ("SI", .SI), ("FS", .SI)]

/-- First-match lookup in an association list, the read operation of a
JavaScript Map whose keys are kept unique by jsMapSet. -/
def jsMapGet {κ β : Type} [DecidableEq κ] : List (κ × β) → κ → Option β
  | [], _ => none
  | (k', v) :: rest, k => if k' = k then some v else jsMapGet rest k

/-- JavaScript Map.set: overwrite in place when the key exists (keeping
its insertion position), otherwise append at the end. -/
def jsMapSet {κ β : Type} [DecidableEq κ] (m : List (κ × β)) (k : κ) (x : β) :
    List (κ × β) :=
  if (jsMapGet m k).isSome then
    m.map (fun p => if p.1 = k then (k, x) else p)
  else m ++ [(k, x)]

/-- All available feed ids, in enum declaration order
(source: feedRegistry.ts, ALL_FEEDS = Object.values(FeedId)). -/
def ALL_FEEDS : List FeedId :=
  [.Default, .ACE, .BDFM, .G, .JZ, .L, .NQRW, .SI]

/-- Character-wise uppercase, the embedding of the JavaScript
toUpperCase call on the ASCII identifiers this system handles. -/
def jsToUpper (s : String) : String := ⟨s.data.map Char.toUpper⟩

/-- Feed id carrying a given route, Default when unknown
(source: feedRegistry.ts, getFeedForRoute). -/
def getFeedForRoute (route : String) : FeedId :=
  (jsMapGet ROUTE_TO_FEED (jsToUpper route)).getD .Default

/-- JavaScript Set insertion: keep first occurrence order, drop duplicates. -/
def insertUnique {κ : Type} [DecidableEq κ] (l : List κ) (x : κ) : List κ :=
  if x ∈ l then l else l ++ [x]

/-- Minimal deduplicated feed set covering the requested routes; all feeds
when the request is absent or empty (source: feedRegistry.ts,
getFeedsForRoutes).  The undefined-vs-empty-array distinction of the
TypeScript optional parameter is modelled with Option. -/
def getFeedsForRoutes (routes : Option (List String)) : List FeedId :=
  match routes with
  | none => ALL_FEEDS
  | some rs =>
    if rs = [] then ALL_FEEDS
    else rs.foldl (fun acc r => insertUnique acc (getFeedForRoute r)) []

/-! GTFS-realtime message model (the subset of the decoded protobuf
interfaces the mappers read; every field of the bindings is optional). -/

/-- Trip descriptor of a decoded feed entity. -/
structure TripDescriptor where
  tripId : Option String
  routeId : Option String
deriving DecidableEq, Repr

/-- Arrival or departure event of a stop-time update; the wide-integer
(Long) wrapper values of the bindings are already normalised to plain
integers here, with absence as none. -/
structure StopTimeEvent where
  time : Option ℤ
  delay : Option ℤ
deriving DecidableEq, Repr

/-- One per-stop prediction inside a trip update. -/
structure StopTimeUpdate where
  stopId : Option String
  arrival : Option StopTimeEvent
  departure : Option StopTimeEvent
deriving DecidableEq, Repr

/-- Trip update payload of a feed entity. -/
structure TripUpdate where
  trip : Option TripDescriptor
  stopTimeUpdate : Option (List StopTimeUpdate)
deriving DecidableEq, Repr

/-- Vehicle position payload of a feed entity. -/
structure VehicleDescriptor where
  trip : Option TripDescriptor
  stopId : Option String
deriving DecidableEq, Repr

/-- One translation of a translated string. -/
structure Translation where
  text : Option String
  language : Option String
deriving DecidableEq, Repr

/-- Translated string of an alert header or description. -/
structure TranslatedString where
  translation : Option (List Translation)
deriving DecidableEq, Repr

/-- Informed entity selector of an alert. -/
structure EntitySelector where
  routeId : Option String
deriving DecidableEq, Repr

/-- Active period of an alert, optional start and end epoch seconds. -/
structure TimeRange where
  start : Option ℤ
  end' : Option ℤ
deriving DecidableEq, Repr

/-- Alert payload of a feed entity. -/
structure Alert where
  informedEntity : Option (List EntitySelector)
  activePeriod : Option (List TimeRange)
  headerText : Option TranslatedString
  descriptionText : Option TranslatedString
deriving DecidableEq, Repr

/-- One record of a decoded feed message. -/
structure FeedEntity where
  id : Option String
  vehicle : Option VehicleDescriptor
  tripUpdate : Option TripUpdate
  alert : Option Alert
deriving DecidableEq, Repr

/-- Decoded GTFS-RT feed message. -/
structure FeedMessage where
  entity : Option (List FeedEntity)
deriving DecidableEq, Repr

/-! Domain records (source: src/data/mta/types.ts). -/

/-- Vehicle position domain record, generic over the idealisation of the
JavaScript number type. -/
structure VehiclePosition (α : Type) where
  id : String
  routeId : String
  latitude : α
  longitude : α
  bearing : α
  direction : CardinalDirection
  tripId : Option String
  currentStopId : Option String
  lastUpdatedMs : ℤ
deriving DecidableEq, Repr

/-- Arrival prediction domain record. -/
structure ArrivalPrediction where
  id : String
  routeId : String
  tripId : String
  stopId : String
  direction : CardinalDirection
  arrivalTime : ℤ
  departureTime : ℤ
  delay : ℤ
deriving DecidableEq, Repr

/-- Active period of a service alert domain record. -/
structure AlertActivePeriod where
  startTime : Option ℤ
  endTime : Option ℤ
deriving DecidableEq, Repr

/-- Service alert domain record. -/
structure ServiceAlert where
  id : String
  routeIds : List String
  header : String
  description : String
  activePeriods : List AlertActivePeriod
deriving DecidableEq, Repr

/-- Station coordinates, generic over the number idealisation. -/
structure StopCoords (α : Type) where
  lat : α
  lng : α
deriving DecidableEq, Repr

/-! Stop lookup (source: src/data/mta/mappers/stopLookup.ts).  The bundled
static station table is external read-only data, so the lookup map is a
parameter of the mapper. -/

/-- Strip a single trailing directional suffix letter N or S from a GTFS
stop id to get the parent station id (source: stopLookup.ts,
parentStationId, regex replace of a final N or S). -/
def parentStationId (stopId : String) : String :=
  match stopId.data.getLast? with
  | some 'N' => ⟨stopId.data.dropLast⟩
  | some 'S' => ⟨stopId.data.dropLast⟩
  | _ => stopId

/-- Coordinate lookup: exact match first, then the parent station id
(source: stopLookup.ts, getStopCoords). -/
def getStopCoords (stations : String → Option (StopCoords ℝ))
    (stopId : String) : Option (StopCoords ℝ) :=
  (stations stopId).orElse (fun _ => stations (parentStationId stopId))

/-! Vehicle mapper (source: src/data/mta/mappers/vehicleMapper.ts). -/

/-- First match of the regular expression dot-dot-capture-of-N-or-S in a
character list: at each position try to read two dots followed by N or S,
else advance one character (source: vehicleMapper.ts, fallbackDirection,
tripId.match of double dot then [NS]). -/
def matchDotDotNS : List Char → Option Char
  | c1 :: c2 :: c3 :: rest =>
    if c1 = '.' ∧ c2 = '.' ∧ (c3 = 'N' ∨ c3 = 'S') then some c3
    else matchDotDotNS (c2 :: c3 :: rest)
  | _ => none

/-- Trip-id half of the fallback direction rule: a captured N or S after
two dots, else UNK.  An empty trip id is falsy in the source's truthiness
check. -/
def fallbackFromTrip (tripId : Option String) : CardinalDirection :=
  match tripId with
  | some t =>
    if t = "" then .UNK
    else
      match matchDotDotNS t.data with
      | some c => if c = 'N' then .N else .S
      | none => .UNK
  | none => .UNK

/-- Fallback cardinal direction from raw feed data, used only when no real
bearing can be computed: trailing N or S of the stop id, else the trip id
token, else UNK (source: vehicleMapper.ts, fallbackDirection). -/
def fallbackDirection (stopId tripId : Option String) : CardinalDirection :=
  match stopId with
  | some s =>
    if s = "" then fallbackFromTrip tripId
    else
      match s.data.getLast? with
      | some 'N' => .N
      | some 'S' => .S
      | _ => fallbackFromTrip tripId
  | none => fallbackFromTrip tripId

/-- Coarse canonical bearing assigned to a fallback direction
(source: vehicleMapper.ts lines assigning 0, 180, 90, 270, else 0). -/
def fallbackBearing {α : Type} [LinearOrderedField α]
    (d : CardinalDirection) : α :=
  match d with
  | .N => 0
  | .S => 180
  | .E => 90
  | .W => 270
  | .UNK => 0

/-- Stable vehicle id: the entity id when truthy, else trip id and stop id
joined with a dash, with unknown placeholders
(source: vehicleMapper.ts, createVehicleId). -/
def createVehicleId (entityId tripId stopId : Option String) : String :=
  match entityId with
  | some eid =>
    if eid = "" then (tripId.getD ("unknown")) ++ "-" ++ (stopId.getD ("unknown"))
    else eid
  | none => (tripId.getD ("unknown")) ++ "-" ++ (stopId.getD ("unknown"))

/-- Two-argument arctangent via the complex argument, which lies in the
half-open interval from minus pi exclusive to pi inclusive, matching
JavaScript Math.atan2 on finite inputs. -/
noncomputable def atan2 (y x : ℝ) : ℝ := Complex.arg ⟨x, y⟩

/-- Initial great-circle compass bearing from point one to point two,
normalised into the interval from 0 inclusive to 360 exclusive
(source: vehicleMapper.ts, computeBearing). -/
noncomputable def computeBearing (lat1 lon1 lat2 lon2 : ℝ) : ℝ :=
  let phi1 := lat1 * (Real.pi / 180)
  let phi2 := lat2 * (Real.pi / 180)
  let dLambda := (lon2 - lon1) * (Real.pi / 180)
  let y := Real.sin dLambda * Real.cos phi2
  let x := Real.cos phi1 * Real.sin phi2 -
    Real.sin phi1 * Real.cos phi2 * Real.cos dLambda
  jsMod (atan2 y x * (180 / Real.pi) + 360) 360

/-- Index of the feed's trip updates by trip id, last write wins on
duplicates (source: vehicleMapper.ts, the tripUpdates Map). -/
def tripUpdatesIndex (entities : List FeedEntity) : List (String × TripUpdate) :=
  entities.foldl
    (fun acc e =>
      match e.tripUpdate with
      | some tu =>
        match tu.trip.bind TripDescriptor.tripId with
        | some tid => if tid = "" then acc else jsMapSet acc tid tu
        | none => acc
      | none => acc)
    []

/-- Next-stop coordinate resolution: find the current stop inside the
matching trip update's ordered stop-time list and, when it is not the
last stop, resolve the following stop's coordinates
(source: vehicleMapper.ts, the next-stop block of mapVehiclePositions). -/
def findNextStopCoords (stations : String → Option (StopCoords ℝ))
    (tidx : List (String × TripUpdate)) (stopId : String)
    (tripId : Option String) : Option (StopCoords ℝ) :=
  match tripId with
  | none => none
  | some tid =>
    if tid = "" then none
    else
      match jsMapGet tidx tid with
      | none => none
      | some tu =>
        match tu.stopTimeUpdate with
        | none => none
        | some stops =>
          match stops.findIdx? (fun s => decide (s.stopId = some stopId)) with
          | none => none
          | some curIdx =>
            if curIdx < stops.length - 1 then
              match stops[curIdx + 1]? with
              | none => none
              | some nextStop =>
                match nextStop.stopId with
                | none => none
                | some nextStopId =>
                  if nextStopId = "" then none
                  else getStopCoords stations nextStopId
            else none

/-- Bearing and direction resolution: the real bearing and its quadrant
direction when a bearing was computed, else the fallback direction with
its canonical coarse bearing (source: vehicleMapper.ts, the direction
block of mapVehiclePositions). -/
noncomputable def resolveBD (bearingOpt : Option ℝ) (stopId : String)
    (tripId : Option String) : ℝ × CardinalDirection :=
  match bearingOpt with
  | some b => (b, cardinalFromBearing b)
  | none =>
    let d := fallbackDirection (some stopId) tripId
    (fallbackBearing d, d)

/-- Per-entity vehicle mapping: requires a vehicle payload, a truthy route
id (uppercased), a truthy stop id and resolvable current coordinates; the
bearing comes from the current-to-next-stop great circle when available,
else from the fallback rule (source: vehicleMapper.ts, the body of the
vehicle loop of mapVehiclePositions). -/
noncomputable def mapVehicleEntity (stations : String → Option (StopCoords ℝ))
    (tidx : List (String × TripUpdate)) (nowMs : ℤ) (e : FeedEntity) :
    Option (VehiclePosition ℝ) :=
  match e.vehicle with
  | none => none
  | some vehicle =>
    match (vehicle.trip.bind TripDescriptor.routeId).map jsToUpper with
    | none => none
    | some routeId =>
      if routeId = "" then none
      else
        match vehicle.stopId with
        | none => none
        | some stopId =>
          if stopId = "" then none
          else
            match getStopCoords stations stopId with
            | none => none
            | some curCoords =>
              let tripId := vehicle.trip.bind TripDescriptor.tripId
              let nextCoords := findNextStopCoords stations tidx stopId tripId
              let bd := resolveBD
                (nextCoords.map (fun nc =>
                  computeBearing curCoords.lat curCoords.lng nc.lat nc.lng))
                stopId tripId
              some { id := createVehicleId e.id tripId (some stopId),
                     routeId := routeId,
                     latitude := curCoords.lat,
                     longitude := curCoords.lng,
                     bearing := bd.1,
                     direction := bd.2,
                     tripId := tripId,
                     currentStopId := some stopId,
                     lastUpdatedMs := nowMs }

/-- Vehicle mapper over a decoded feed message (source: vehicleMapper.ts,
mapVehiclePositions).  Date.now becomes the nowMs parameter and the
bundled station table the stations parameter. -/
noncomputable def mapVehiclePositions
    (stations : String → Option (StopCoords ℝ)) (nowMs : ℤ)
    (feed : FeedMessage) : List (VehiclePosition ℝ) :=
  let entities := feed.entity.getD []
  entities.filterMap (mapVehicleEntity stations (tripUpdatesIndex entities) nowMs)

/-! Mock train feed (source: src/data/mta/mockTrainFeed.ts). -/

/-- Seed row of the mock train feed, generic over the number
idealisation. -/
structure MockSeed (α : Type) where
  id : String
  routeId : String
  latitude : α
  longitude : α
  bearing : α
deriving DecidableEq, Repr

/-- Fixed seed positions of the mock feed (source: mockTrainFeed.ts,
SEED_TRAINS); the decimal coordinate literals are written as exact
fractions. -/
def SEED_TRAINS {α : Type} [LinearOrderedField α] : List (MockSeed α) :=
  [⟨"mock-A-1", "A", 407502/10000, -739934/10000, 190⟩,
   ⟨"mock-7-1", "7", 407528/10000, -739772/10000, 92⟩,
   ⟨"mock-Q-1", "Q", 407348/10000, -739901/10000, 15⟩,
   ⟨"mock-4-1", "4", 407053/10000, -740139/10000, 10⟩,
   ⟨"mock-L-1", "L", 407323/10000, -739546/10000, 265⟩,
   ⟨"mock-F-1", "F", 407212/10000, -739984/10000, 38⟩]

/-- Synthetic mock trains: each seed gets a slowly varying bearing and a
small positional jitter; Math.random becomes the rand parameter, indexed
by draw order (three draws per seed: bearing, latitude, longitude), and
jitter amount 0.0045 is written 9 / 2000
(source: mockTrainFeed.ts, getMockTrains and jitter). -/
def getMockTrains {α : Type} [LinearOrderedField α] [FloorRing α]
    (now : ℤ) (rand : ℕ → α) : List (VehiclePosition α) :=
  (SEED_TRAINS (α := α)).enum.map (fun p =>
    let i := p.1
    let seed := p.2
    let nextBearing :=
      wrapBearing (seed.bearing + (rand (3 * i) - 1/2) * 16)
    { id := seed.id,
      routeId := seed.routeId,
      latitude := seed.latitude + (rand (3 * i + 1) - 1/2) * (9/2000),
      longitude := seed.longitude + (rand (3 * i + 2) - 1/2) * (9/2000),
      bearing := nextBearing,
      direction :=
        if nextBearing < 90 ∨ 315 ≤ nextBearing then .N
        else if nextBearing < 180 then .E
        else if nextBearing < 270 then .S
        else .W,
      tripId := none,
      currentStopId := none,
      lastUpdatedMs := now })

/-! Trip update mapper (source: src/data/mta/mappers/tripUpdateMapper.ts). -/

/-- Timestamp normalisation: absent values and non-numeric wrappers become
zero; the wide-integer wrapper case collapses to the integer itself in
this embedding (source: tripUpdateMapper.ts, toSeconds). -/
def toSeconds (value : Option ℤ) : ℤ := value.getD 0

/-- Characters after the last underscore, equal to splitting on
underscores and popping the final segment. -/
def lastUnderscoreToken (s : String) : String :=
  ⟨s.data.foldl (fun acc c => if c = '_' then [] else acc ++ [c]) []⟩

/-- Direction extraction from the trailing underscore-separated token of a
trip id (source: tripUpdateMapper.ts, extractDirection, split on
underscore then pop). -/
def extractDirection (tripId : Option String) : CardinalDirection :=
  let token := tripId.map lastUnderscoreToken
  if token = some ("N") then .N
  else if token = some ("S") then .S
  else .UNK

/-- Per stop-time mapping of one trip update: requires a truthy stop id;
the effective arrival is the JavaScript or of arrival and departure
timestamps, and zero or past effective times are skipped
(source: tripUpdateMapper.ts, the stopTimeUpdate loop). -/
def mapStopTime (nowSec : ℤ) (routeId tripId : String)
    (direction : CardinalDirection) (st : StopTimeUpdate) :
    Option ArrivalPrediction :=
  match st.stopId with
  | none => none
  | some stopId =>
    if stopId = "" then none
    else
      let arrivalTime := toSeconds (st.arrival.bind StopTimeEvent.time)
      let departureTime := toSeconds (st.departure.bind StopTimeEvent.time)
      let effectiveArrival := if arrivalTime ≠ 0 then arrivalTime else departureTime
      if effectiveArrival = 0 ∨ effectiveArrival < nowSec then none
      else
        some { id := tripId ++ "-" ++ stopId,
               routeId := routeId,
               tripId := tripId,
               stopId := stopId,
               direction := direction,
               arrivalTime := effectiveArrival,
               departureTime := if departureTime ≠ 0 then departureTime
                 else effectiveArrival,
               delay := toSeconds (st.arrival.bind StopTimeEvent.delay) }

/-- Per-entity arrival mapping: requires a trip update payload and a truthy
uppercased route id (source: tripUpdateMapper.ts, the entity loop of
mapTripUpdates). -/
def mapTripUpdateEntity (nowSec : ℤ) (e : FeedEntity) : List ArrivalPrediction :=
  match e.tripUpdate with
  | none => []
  | some tu =>
    match (tu.trip.bind TripDescriptor.routeId).map jsToUpper with
    | none => []
    | some routeId =>
      if routeId = "" then []
      else
        let tripId := (tu.trip.bind TripDescriptor.tripId).getD ("")
        let direction := extractDirection (some tripId)
        (tu.stopTimeUpdate.getD []).filterMap
          (mapStopTime nowSec routeId tripId direction)

/-- Arrival mapper over a decoded feed message (source: tripUpdateMapper.ts,
mapTripUpdates); Date.now in seconds becomes the nowSec parameter. -/
def mapTripUpdates (nowSec : ℤ) (feed : FeedMessage) : List ArrivalPrediction :=
  (feed.entity.getD []).flatMap (mapTripUpdateEntity nowSec)

/-- Modelled from the spec: effective arrival time of a stop-time update,
the arrival time if present and non-zero, else the departure time.  Used
only to compare mapTripUpdates against the specification wording. -/
def specEffectiveTime (st : StopTimeUpdate) : ℤ :=
  match st.arrival.bind StopTimeEvent.time with
  | some a => if a ≠ 0 then a else toSeconds (st.departure.bind StopTimeEvent.time)
  | none => toSeconds (st.departure.bind StopTimeEvent.time)

/-- Modelled from the spec: the trip update mapper as the claim words it.
For every trip-update entity with a known route id, one prediction per
stop-time update that has a stop id, excluding entries whose effective
time is zero, absent, or strictly before now. -/
def mapTripUpdatesSpec (nowSec : ℤ) (feed : FeedMessage) :
    List ArrivalPrediction :=
  (feed.entity.getD []).flatMap (fun e =>
    match e.tripUpdate with
    | none => []
    | some tu =>
      match (tu.trip.bind TripDescriptor.routeId).map jsToUpper with
      | none => []
      | some routeId =>
        if routeId = "" then []
        else
          let tripId := (tu.trip.bind TripDescriptor.tripId).getD ("")
          let direction := extractDirection (some tripId)
          (tu.stopTimeUpdate.getD []).filterMap (fun st =>
            match st.stopId with
            | none => none
            | some stopId =>
              if stopId = "" then none
              else
                if specEffectiveTime st ≠ 0 ∧ nowSec ≤ specEffectiveTime st then
                  some { id := tripId ++ "-" ++ stopId,
                         routeId := routeId,
                         tripId := tripId,
                         stopId := stopId,
                         direction := direction,
                         arrivalTime := specEffectiveTime st,
                         departureTime :=
                           if toSeconds (st.departure.bind StopTimeEvent.time) ≠ 0
                           then toSeconds (st.departure.bind StopTimeEvent.time)
                           else specEffectiveTime st,
                         delay := toSeconds (st.arrival.bind StopTimeEvent.delay) }
                else none))

/-- Stable insertion of a prediction into a list sorted by ascending
arrival time. -/
def insertByArrival (p : ArrivalPrediction) :
    List ArrivalPrediction → List ArrivalPrediction
  | [] => [p]
  | q :: rest =>
    if p.arrivalTime ≤ q.arrivalTime then p :: q :: rest
    else q :: insertByArrival p rest

/-- Sort predictions by ascending arrival time (source:
tripUpdateMapper.ts, the comparator of filterArrivalsForStation). -/
def sortByArrival (l : List ArrivalPrediction) : List ArrivalPrediction :=
  l.foldr insertByArrival []

/-- Station filter: match by the base stop id with the trailing
directional letter stripped from both sides, then sort ascending by
arrival time (source: tripUpdateMapper.ts, filterArrivalsForStation). -/
def filterArrivalsForStation (predictions : List ArrivalPrediction)
    (stationStopId : String) : List ArrivalPrediction :=
  let baseId := parentStationId stationStopId
  sortByArrival (predictions.filter
    (fun p => decide (parentStationId p.stopId = baseId)))

/-! Alert mapper (source: src/data/mta/mappers/alertMapper.ts). -/

/-- Timestamp normalisation of the alert mapper: absence stays none, and
the wide-integer wrapper case collapses to the integer itself
(source: alertMapper.ts, toSeconds). -/
def toSecondsOrNull (value : Option ℤ) : Option ℤ :=
  match value with
  | none => none
  | some n => some n

/-- JavaScript falsiness of an optional language tag: absent or empty. -/
def langFalsy (language : Option String) : Bool :=
  match language with
  | none => true
  | some s => decide (s = "")

/-- Text extraction from a translated string: the first translation whose
language is falsy or tagged en, else the first translation, else the
empty string (source: alertMapper.ts, extractTranslatedText). -/
def extractTranslatedText (translated : Option TranslatedString) : String :=
  match translated.bind TranslatedString.translation with
  | none => ""
  | some [] => ""
  | some (t :: rest) =>
    match (t :: rest).find?
        (fun tr => langFalsy tr.language ||
          decide (tr.language = some ("en"))) with
    | some tr => tr.text.getD ("")
    | none => t.text.getD ("")

/-- One step of the alert mapper's accumulation: collect uppercased
affected route ids, parse active periods, extract header and
description, and drop the alert when both texts are empty; a missing
entity id yields a positional alert-N id
(source: alertMapper.ts, the entity loop of mapAlerts). -/
def mapAlertsStep (alerts : List ServiceAlert) (e : FeedEntity) :
    List ServiceAlert :=
  match e.alert with
  | none => alerts
  | some alert =>
    let routeIds := (alert.informedEntity.getD []).foldl
      (fun acc informed =>
        match informed.routeId.map jsToUpper with
        | some rid => if rid = "" then acc else insertUnique acc rid
        | none => acc)
      []
    let activePeriods := (alert.activePeriod.getD []).map
      (fun period => AlertActivePeriod.mk
        (toSecondsOrNull period.start) (toSecondsOrNull period.end'))
    let header := extractTranslatedText alert.headerText
    let description := extractTranslatedText alert.descriptionText
    if header = "" ∧ description = "" then alerts
    else alerts ++
      [{ id := e.id.getD ("alert-" ++ toString alerts.length),
         routeIds := routeIds,
         header := header,
         description := description,
         activePeriods := activePeriods }]

/-- Alert mapper over a decoded feed message
(source: alertMapper.ts, mapAlerts). -/
def mapAlerts (feed : FeedMessage) : List ServiceAlert :=
  (feed.entity.getD []).foldl mapAlertsStep []

/-- Route filter for alerts: all alerts when no routes requested, else
those whose route id set intersects the uppercased request
(source: alertMapper.ts, filterAlertsForRoutes). -/
def filterAlertsForRoutes (alerts : List ServiceAlert)
    (routes : Option (List String)) : List ServiceAlert :=
  match routes with
  | none => alerts
  | some rs =>
    if rs = [] then alerts
    else alerts.filter
      (fun a => a.routeIds.any (fun rid => (rs.map jsToUpper).contains rid))

/-! Feed fetcher (source: src/data/mta/feeds/feedFetcher.ts).  Network and
time effects are explicit: the outcome of one decode attempt is an Except
value and Date.now a parameter. -/

/-- Base retry delay in milliseconds (source: feedFetcher.ts,
RETRY_DELAY_MS). -/
def RETRY_DELAY_MS : ℤ := 2000

/-- Maximum number of retries after the first attempt
(source: feedFetcher.ts, MAX_RETRIES). -/
def MAX_RETRIES : ℕ := 1

/-- Cache entry of the fetcher: the decoded message and its fetch
timestamp (source: feedFetcher.ts, CacheEntry). -/
structure FCacheEntry where
  message : FeedMessage
  fetchedAt : ℤ
deriving DecidableEq, Repr

/-- Result of one fetchFeed call: the outcome, the cache state after the
call, and whether the network path ran (false exactly when served from
cache). -/
structure FetchFeedResult where
  result : Except String FeedMessage
  cache : List (FeedId × FCacheEntry)
  networkUsed : Bool
deriving Repr

/-- Single-feed fetch with TTL cache (source: feedFetcher.ts, fetchFeed).
The network-and-retry pipeline is abstracted into the net outcome; now is
Date.now at the cache check, completionTime Date.now at the cache write. -/
def fetchFeedM (cache : List (FeedId × FCacheEntry)) (feedId : FeedId)
    (cacheTtlMs : ℤ) (now completionTime : ℤ)
    (net : Except String FeedMessage) : FetchFeedResult :=
  let cached : Option FeedMessage :=
    if 0 < cacheTtlMs then
      match jsMapGet cache feedId with
      | some entry =>
        if now - entry.fetchedAt < cacheTtlMs then some entry.message else none
      | none => none
    else none
  match cached with
  | some m => ⟨.ok m, cache, false⟩
  | none =>
    match net with
    | .ok m => ⟨.ok m, jsMapSet cache feedId ⟨m, completionTime⟩, true⟩
    | .error e => ⟨.error e, cache, true⟩

/-- Result of fetchWithRetry: the final outcome, how many attempts ran,
and the backoff delays waited between attempts in order. -/
structure RetryResult where
  result : Except String FeedMessage
  attemptsMade : ℕ
  delays : List ℤ
deriving Repr

/-- Retry loop body (source: feedFetcher.ts, fetchWithRetry).  The outcome
of fetchAndDecode on each attempt and the abort-signal state observed when
an attempt fails are oracle parameters indexed by attempt number. -/
def retryGo (outcome : ℕ → Except String FeedMessage)
    (aborted : ℕ → Bool) (attempt remaining : ℕ) : RetryResult :=
  match outcome attempt with
  | .ok m => ⟨.ok m, attempt + 1, []⟩
  | .error e =>
    if aborted attempt then ⟨.error e, attempt + 1, []⟩
    else
      match remaining with
      | 0 => ⟨.error e, attempt + 1, []⟩
      | r + 1 =>
        let rest := retryGo outcome aborted (attempt + 1) r
        ⟨rest.result, rest.attemptsMade,
          RETRY_DELAY_MS * ((attempt : ℤ) + 1) :: rest.delays⟩
termination_by remaining

/-- Fetch with retry (source: feedFetcher.ts, fetchWithRetry): up to
retries additional attempts after the first, waiting the base delay times
the one-based attempt number before each retry, unless the abort signal
is set when an attempt fails. -/
def fetchWithRetry (outcome : ℕ → Except String FeedMessage)
    (aborted : ℕ → Bool) (retries : ℕ) : RetryResult :=
  retryGo outcome aborted 0 retries

/-- Partition step over one settled endpoint outcome: a fulfilled outcome
goes into the results map, a rejected one into the errors map
(source: feedFetcher.ts, the loop over the settled array; the index-based
feed id recovery is exact because allSettled yields one fresh result
object per input position). -/
def settleStep
    (acc : List (FeedId × FeedMessage) × List (FeedId × String))
    (r : FeedId × Except String FeedMessage) :
    List (FeedId × FeedMessage) × List (FeedId × String) :=
  match r.2 with
  | .ok m => (jsMapSet acc.1 r.1 m, acc.2)
  | .error e => (acc.1, jsMapSet acc.2 r.1 e)

/-- Batch fetch (source: feedFetcher.ts, fetchFeeds): settle every
endpoint's outcome, then partition into the results map and the errors
map with JavaScript Map set semantics.  The embedding returns a plain
pair, reflecting that the promise always resolves. -/
def fetchFeeds (feedIds : List FeedId)
    (f : FeedId → Except String FeedMessage) :
    List (FeedId × FeedMessage) × List (FeedId × String) :=
  (feedIds.map (fun id => (id, f id))).foldl settleStep ([], [])

/-! Aggregation service (source: src/data/mta/services/mtaSubwayService.ts,
class MTASubwayService).  The per-endpoint fetch outcome is an oracle f;
the mode field and the console.warn log are returned explicitly. -/

/-- Mode of the last fetch (source: types.ts, FeedMode). -/
inductive FeedMode where
  | live | mock
deriving DecidableEq, Repr

/-- Snapshot returned by fetchAll (source: types.ts, SubwaySnapshot). -/
structure SubwaySnapshot where
  vehicles : List (VehiclePosition ℝ)
  arrivals : List ArrivalPrediction
  alerts : List ServiceAlert

/-- Deduplicate vehicles by id, keeping the last occurrence
(source: mtaSubwayService.ts, deduplicateVehicles). -/
noncomputable def deduplicateVehicles (vehicles : List (VehiclePosition ℝ)) :
    List (VehiclePosition ℝ) :=
  (vehicles.foldl (fun m v => jsMapSet m v.id v) []).map Prod.snd

/-- Collect all decoded messages into one flat entity list
(source: mtaSubwayService.ts, collectMessages). -/
def collectMessages (results : List (FeedId × FeedMessage)) : FeedMessage :=
  ⟨some (results.flatMap (fun p => p.2.entity.getD []))⟩

/-- Warning line logged when every feed failed: the fixed text followed by
the error messages joined with a pipe separator
(source: mtaSubwayService.ts, the console.warn call). -/
def allFailedLog (errors : List (FeedId × String)) : String :=
  "All MTA feeds failed, using mock data: " ++
    String.intercalate (" | ") (errors.map Prod.snd)

/-- Route narrowing applied post-mapping when a route filter was supplied
(source: mtaSubwayService.ts, the routeSet filter). -/
noncomputable def filterVehiclesForRoutes (vehicles : List (VehiclePosition ℝ))
    (routes : Option (List String)) : List (VehiclePosition ℝ) :=
  match routes with
  | none => vehicles
  | some rs =>
    if rs = [] then vehicles
    else vehicles.filter
      (fun v => (rs.map jsToUpper).contains v.routeId)

/-- fetchVehicles (source: mtaSubwayService.ts): resolve the covering feed
set, batch fetch, fall back to mock trains with a warning and mock mode
when every feed failed, else map, deduplicate and filter in live mode.
Returns the vehicles, the mode after the call, and the log lines. -/
noncomputable def fetchVehiclesM (stations : String → Option (StopCoords ℝ))
    (f : FeedId → Except String FeedMessage) (routes : Option (List String))
    (nowMs : ℤ) (rand : ℕ → ℝ) :
    List (VehiclePosition ℝ) × FeedMode × List String :=
  let fr := fetchFeeds (getFeedsForRoutes routes) f
  if fr.1.length = 0 then
    (getMockTrains nowMs rand, .mock, [allFailedLog fr.2])
  else
    let vehicles := deduplicateVehicles
      (fr.1.flatMap (fun p => mapVehiclePositions stations nowMs p.2))
    (filterVehiclesForRoutes vehicles routes, .live, [])

/-- fetchArrivals (source: mtaSubwayService.ts): fetch every feed, return
the empty list when all fail, else map and station-filter the merged
message.  The method neither logs nor touches the mode field, so the mode
parameter is passed through unchanged. -/
def fetchArrivalsM (f : FeedId → Except String FeedMessage)
    (stationId : String) (mode0 : FeedMode) (nowSec : ℤ) :
    List ArrivalPrediction × FeedMode × List String :=
  let fr := fetchFeeds ALL_FEEDS f
  if fr.1.length = 0 then ([], mode0, [])
  else
    (filterArrivalsForStation (mapTripUpdates nowSec (collectMessages fr.1))
      stationId, mode0, [])

/-- fetchAlerts (source: mtaSubwayService.ts): fetch every feed, return the
empty list when all fail, else map and route-filter the merged message.
Like fetchArrivals it neither logs nor touches the mode field. -/
def fetchAlertsM (f : FeedId → Except String FeedMessage)
    (routes : Option (List String)) (mode0 : FeedMode) :
    List ServiceAlert × FeedMode × List String :=
  let fr := fetchFeeds ALL_FEEDS f
  if fr.1.length = 0 then ([], mode0, [])
  else
    (filterAlertsForRoutes (mapAlerts (collectMessages fr.1)) routes,
      mode0, [])

/-- fetchAll (source: mtaSubwayService.ts): like fetchVehicles but mapping
vehicles, arrivals and alerts from the merged message in one pass; on
total failure the snapshot holds the mock trains and empty arrival and
alert lists. -/
noncomputable def fetchAllM (stations : String → Option (StopCoords ℝ))
    (f : FeedId → Except String FeedMessage) (routes : Option (List String))
    (nowMs nowSec : ℤ) (rand : ℕ → ℝ) :
    SubwaySnapshot × FeedMode × List String :=
  let fr := fetchFeeds (getFeedsForRoutes routes) f
  if fr.1.length = 0 then
    (⟨getMockTrains nowMs rand, [], []⟩, .mock, [allFailedLog fr.2])
  else
    let merged := collectMessages fr.1
    let vehicles := deduplicateVehicles (mapVehiclePositions stations nowMs merged)
    (⟨filterVehiclesForRoutes vehicles routes,
      mapTripUpdates nowSec merged,
      filterAlertsForRoutes (mapAlerts merged) routes⟩, .live, [])

/-! Concrete fixtures used by witnesses and counterexamples. -/

/-- Station table with a single station, id A15. -/
def exampleStations : String → Option (StopCoords ℝ) :=
  fun s => if s = "A15" then some ⟨40, -73⟩ else none

/-- Feed with one vehicle entity at stop A15 whose trip has no trip
update, no directional stop suffix and no directional trip-id token, so
the mapper must take the fallback path and produce UNK. -/
def exampleFeedVehicleUNK : FeedMessage :=
  ⟨some [⟨some ("veh-1"),
         some ⟨some ⟨some ("trip-1"), some ("A")⟩, some ("A15")⟩,
         none, none⟩]⟩

/-- The vehicle the mapper produces from exampleFeedVehicleUNK. -/
noncomputable def exampleVehicleUNK : VehiclePosition ℝ :=
  ⟨"veh-1", "A", 40, -73, 0, .UNK, some ("trip-1"), some ("A15"), 0⟩

/-- Random draws in the unit interval: draw 3 (the bearing draw of the
second seed) is one eighth, every other draw one half. -/
def exampleMockRand : ℕ → ℚ := fun n => if n = 3 then 1/8 else 1/2

/-- Translation list with a French-tagged first entry and an untagged
second entry; no entry is tagged en. -/
def exampleTranslations : List Translation :=
  [⟨some ("bonjour"), some ("fr")⟩, ⟨some ("hi"), none⟩]

/-- Feed with one alert entity on route A whose header has a single
English-tagged translation and whose description is absent. -/
def exampleAlertFeed : FeedMessage :=
  ⟨some [⟨some ("a1"), none, none,
         some ⟨some [⟨some ("A")⟩], some [],
               some ⟨some [⟨some ("Delays"), some ("en")⟩]⟩, none⟩⟩]⟩

/-- The alert mapAlerts produces from exampleAlertFeed. -/
def exampleServiceAlert : ServiceAlert := ⟨"a1", ["A"], "Delays", "", []⟩

/-- Feed with one trip-update entity, trip id T_N on route A, with a
single stop-time update at stop A15N arriving at epoch second 100. -/
def exampleArrivalFeed : FeedMessage :=
  ⟨some [⟨some ("e1"), none,
         some ⟨some ⟨some ("T_N"), some ("A")⟩,
               some [⟨some ("A15N"), some ⟨some 100, some 0⟩, none⟩]⟩,
         none⟩]⟩

/-- The prediction mapTripUpdates produces from exampleArrivalFeed at
now equal to 50. -/
def exampleArrivalPrediction : ArrivalPrediction :=
  ⟨"T_N-A15N", "A", "T_N", "A15N", .N, 100, 100, 0⟩

/-- Fetch oracle on which every endpoint fails. -/
def exampleFailingFetch : FeedId → Except String FeedMessage :=
  fun _ => Except.error ("offline")

/-- Cache with one entry for the G feed fetched at time 5. -/
def exampleCache : List (FeedId × FCacheEntry) :=
  [(FeedId.G, ⟨⟨some []⟩, 5⟩)]

/-- Attempt oracle whose first attempt fails and whose later attempts
succeed with an empty message. -/
def exampleRetryOutcome : ℕ → Except String FeedMessage :=
  fun n => if n = 0 then Except.error ("timeout") else Except.ok ⟨some []⟩

/-- Fetch oracle on which exactly the Default endpoint succeeds. -/
def exampleBatchOutcome : FeedId → Except String FeedMessage :=
  fun id => if id = FeedId.Default then Except.ok ⟨some []⟩
    else Except.error ("fail")

/-! Association list lemmas for the JavaScript Map embedding. -/

lemma jsMapGet_map_replace {κ β : Type} [DecidableEq κ]
    (m : List (κ × β)) (k k' : κ) (x : β) :
    jsMapGet (m.map (fun p => if p.1 = k then (k, x) else p)) k' =
      if k = k' then (if (jsMapGet m k).isSome then some x else none)
      else jsMapGet m k' := by
  induction m with
  | nil => simp [jsMapGet]
  | cons hd tl ih =>
    obtain ⟨k₀, v⟩ := hd
    by_cases h0 : k₀ = k
    · subst h0
      have hmap : ((k₀, v) :: tl).map (fun p => if p.1 = k₀ then (k₀, x) else p)
          = (k₀, x) :: tl.map (fun p => if p.1 = k₀ then (k₀, x) else p) := by
        simp
      rw [hmap]
      by_cases hkk : k₀ = k'
      · subst hkk
        simp [jsMapGet]
      · simp only [jsMapGet, if_neg hkk]
        rw [ih, if_neg hkk]
    · have hmap : ((k₀, v) :: tl).map (fun p => if p.1 = k then (k, x) else p)
          = (k₀, v) :: tl.map (fun p => if p.1 = k then (k, x) else p) := by
        simp [h0]
      rw [hmap]
      by_cases hkk : k₀ = k'
      · have hkne : ¬ k = k' := fun h => h0 (by rw [hkk, ← h])
        simp [jsMapGet, hkk, hkne]
      · simp only [jsMapGet, if_neg hkk]
        rw [ih]
        simp [jsMapGet, h0, hkk]

lemma jsMapGet_append_single {κ β : Type} [DecidableEq κ]
    (m : List (κ × β)) (k k' : κ) (x : β) :
    jsMapGet (m ++ [(k, x)]) k' =
      match jsMapGet m k' with
      | some v => some v
      | none => if k = k' then some x else none := by
  induction m with
  | nil => simp [jsMapGet]
  | cons hd tl ih =>
    obtain ⟨k₀, v⟩ := hd
    by_cases hkk : k₀ = k'
    · simp [jsMapGet, hkk]
    · simpa [jsMapGet, hkk] using ih

lemma jsMapGet_jsMapSet {κ β : Type} [DecidableEq κ]
    (m : List (κ × β)) (k k' : κ) (x : β) :
    jsMapGet (jsMapSet m k x) k' = if k = k' then some x else jsMapGet m k' := by
  unfold jsMapSet
  by_cases hs : (jsMapGet m k).isSome
  · rw [if_pos hs, jsMapGet_map_replace, if_pos hs]
  · rw [if_neg hs, jsMapGet_append_single]
    rcases hget : jsMapGet m k' with _ | v
    · simp
    · have hne : ¬ k = k' := by
        rintro rfl
        rw [hget] at hs
        exact hs rfl
      simp [hne]

/-! Feed registry lemmas. -/

lemma insertUnique_mem {κ : Type} [DecidableEq κ] (l : List κ) (x y : κ) :
    y ∈ insertUnique l x ↔ y ∈ l ∨ y = x := by
  unfold insertUnique
  by_cases h : x ∈ l
  · rw [if_pos h]
    constructor
    · exact Or.inl
    · rintro (hy | rfl)
      · exact hy
      · exact h
  · rw [if_neg h]
    simp

lemma insertUnique_nodup {κ : Type} [DecidableEq κ] (l : List κ) (x : κ)
    (h : l.Nodup) : (insertUnique l x).Nodup := by
  unfold insertUnique
  by_cases hx : x ∈ l
  · rwa [if_pos hx]
  · rw [if_neg hx]
    simpa [List.nodup_append] using ⟨h, hx⟩

lemma getFeedsForRoutes_foldl_mem (rs : List String) (acc : List FeedId)
    (fid : FeedId) :
    fid ∈ rs.foldl (fun acc r => insertUnique acc (getFeedForRoute r)) acc ↔
      fid ∈ acc ∨ ∃ r ∈ rs, getFeedForRoute r = fid := by
  induction rs generalizing acc with
  | nil => simp
  | cons r rest ih =>
    rw [List.foldl_cons, ih, insertUnique_mem]
    constructor
    · rintro ((h | rfl) | ⟨r', hr', rfl⟩)
      · exact Or.inl h
      · exact Or.inr ⟨r, List.mem_cons_self r rest, rfl⟩
      · exact Or.inr ⟨r', List.mem_cons_of_mem r hr', rfl⟩
    · rintro (h | ⟨r', hr', rfl⟩)
      · exact Or.inl (Or.inl h)
      · rcases List.mem_cons.mp hr' with rfl | hr'
        · exact Or.inl (Or.inr rfl)
        · exact Or.inr ⟨r', hr', rfl⟩

lemma getFeedsForRoutes_foldl_nodup (rs : List String) (acc : List FeedId)
    (h : acc.Nodup) :
    (rs.foldl (fun acc r => insertUnique acc (getFeedForRoute r)) acc).Nodup := by
  induction rs generalizing acc with
  | nil => simpa
  | cons r rest ih => exact ih _ (insertUnique_nodup _ _ h)

/-! Cardinal direction lemmas. -/

lemma cardinal_region_cases (θ : ℚ) (_h0 : 0 ≤ θ) (_h360 : θ < 360) :
    (cardinalFromBearing θ = .N ∧ (315 ≤ θ ∨ θ < 45)) ∨
    (cardinalFromBearing θ = .E ∧ (45 ≤ θ ∧ θ < 135)) ∨
    (cardinalFromBearing θ = .S ∧ (135 ≤ θ ∧ θ < 225)) ∨
    (cardinalFromBearing θ = .W ∧ (225 ≤ θ ∧ θ < 315)) := by
  unfold cardinalFromBearing
  split_ifs with hA hE hS
  · exact Or.inl ⟨rfl, hA⟩
  · exact Or.inr (Or.inl ⟨rfl, hE⟩)
  · exact Or.inr (Or.inr (Or.inl ⟨rfl, hS⟩))
  · push_neg at hA hE hS
    refine Or.inr (Or.inr (Or.inr ⟨rfl, ?_, hA.1⟩))
    by_cases h45 : 45 ≤ θ
    · by_cases h135 : 135 ≤ θ
      · linarith [hS h135]
      · linarith [hE h45]
    · linarith [hA.2]

/-! Fallback direction lemmas. -/

lemma fallbackFromTrip_cases (t : Option String) :
    fallbackFromTrip t = .N ∨ fallbackFromTrip t = .S ∨
      fallbackFromTrip t = .UNK := by
  rcases t with _ | s
  · exact Or.inr (Or.inr rfl)
  · unfold fallbackFromTrip
    dsimp only
    by_cases hs : s = ""
    · rw [if_pos hs]
      exact Or.inr (Or.inr rfl)
    · rw [if_neg hs]
      rcases matchDotDotNS s.data with _ | c
      · exact Or.inr (Or.inr rfl)
      · dsimp only
        by_cases hc : c = 'N'
        · rw [if_pos hc]
          exact Or.inl rfl
        · rw [if_neg hc]
          exact Or.inr (Or.inl rfl)

lemma fallbackDirection_cases (s t : Option String) :
    fallbackDirection s t = .N ∨ fallbackDirection s t = .S ∨
      fallbackDirection s t = .UNK := by
  rcases s with _ | s
  · exact fallbackFromTrip_cases t
  · unfold fallbackDirection
    dsimp only
    by_cases hs : s = ""
    · rw [if_pos hs]
      exact fallbackFromTrip_cases t
    · rw [if_neg hs]
      split
      next => exact Or.inl rfl
      next => exact Or.inr (Or.inl rfl)
      next => exact fallbackFromTrip_cases t

/-! Claim C4. -/

/-- C4: for every bearing in the interval from 0 inclusive to 360
exclusive, cardinalFromBearing returns exactly one of N, E, S, W
according to the four sectors, and re-applying it to the canonical
bearing of its result (N to 0, E to 90, S to 180, W to 270, as the
fallback-bearing assignment fixes them) returns the same direction. -/
theorem c4_cardinal_total_and_idempotent :
    ∀ θ : ℚ, 0 ≤ θ → θ < 360 →
      cardinalFromBearing θ ≠ CardinalDirection.UNK ∧
      (cardinalFromBearing θ = CardinalDirection.N ↔ 315 ≤ θ ∨ θ < 45) ∧
      (cardinalFromBearing θ = CardinalDirection.E ↔ 45 ≤ θ ∧ θ < 135) ∧
      (cardinalFromBearing θ = CardinalDirection.S ↔ 135 ≤ θ ∧ θ < 225) ∧
      (cardinalFromBearing θ = CardinalDirection.W ↔ 225 ≤ θ ∧ θ < 315) ∧
      cardinalFromBearing (fallbackBearing (cardinalFromBearing θ) : ℚ) =
        cardinalFromBearing θ := by
  intro θ h0 h360
  obtain ⟨hc, hr⟩ | ⟨hc, hr⟩ | ⟨hc, hr⟩ | ⟨hc, hr⟩ :=
    cardinal_region_cases θ h0 h360
  · rw [hc]
    refine ⟨by decide, iff_of_true rfl hr, ?_, ?_, ?_, by decide⟩
    · exact iff_of_false (by decide)
        (by rintro ⟨h1, h2⟩; rcases hr with h | h <;> linarith)
    · exact iff_of_false (by decide)
        (by rintro ⟨h1, h2⟩; rcases hr with h | h <;> linarith)
    · exact iff_of_false (by decide)
        (by rintro ⟨h1, h2⟩; rcases hr with h | h <;> linarith)
  · obtain ⟨h1, h2⟩ := hr
    rw [hc]
    refine ⟨by decide, ?_, iff_of_true rfl ⟨h1, h2⟩, ?_, ?_, by decide⟩
    · exact iff_of_false (by decide) (by rintro (h | h) <;> linarith)
    · exact iff_of_false (by decide) (by rintro ⟨ha, hb⟩; linarith)
    · exact iff_of_false (by decide) (by rintro ⟨ha, hb⟩; linarith)
  · obtain ⟨h1, h2⟩ := hr
    rw [hc]
    refine ⟨by decide, ?_, ?_, iff_of_true rfl ⟨h1, h2⟩, ?_, by decide⟩
    · exact iff_of_false (by decide) (by rintro (h | h) <;> linarith)
    · exact iff_of_false (by decide) (by rintro ⟨ha, hb⟩; linarith)
    · exact iff_of_false (by decide) (by rintro ⟨ha, hb⟩; linarith)
  · obtain ⟨h1, h2⟩ := hr
    rw [hc]
    refine ⟨by decide, ?_, ?_, ?_, iff_of_true rfl ⟨h1, h2⟩, by decide⟩
    · exact iff_of_false (by decide) (by rintro (h | h) <;> linarith)
    · exact iff_of_false (by decide) (by rintro ⟨ha, hb⟩; linarith)
    · exact iff_of_false (by decide) (by rintro ⟨ha, hb⟩; linarith)

/-- Witness for C4 at the concrete bearing 100, which lies in the east
sector. -/
theorem c4_cardinal_total_and_idempotent_witness :
    ((0 : ℚ) ≤ 100 ∧ (100 : ℚ) < 360) ∧
      cardinalFromBearing (100 : ℚ) ≠ CardinalDirection.UNK ∧
      (cardinalFromBearing (100 : ℚ) = CardinalDirection.E ↔
        45 ≤ (100 : ℚ) ∧ (100 : ℚ) < 135) ∧
      cardinalFromBearing (fallbackBearing (cardinalFromBearing (100 : ℚ)) : ℚ) =
        cardinalFromBearing (100 : ℚ) := by
  have h := c4_cardinal_total_and_idempotent 100 (by norm_num) (by norm_num)
  exact ⟨⟨by norm_num, by norm_num⟩, h.1, h.2.2.1, h.2.2.2.2.2⟩

/-! Claim C5. -/

/-- C5: resolveEndpoints returns the full known endpoint set for absent
or empty input; for non-empty input the deduplicated union of each
requested line's single endpoint, so the lines A and C yield the single
ACE endpoint; a line id missing from the routing table resolves to the
Default endpoint instead of raising; and the line id is uppercased
before lookup, so resolution is case-insensitive. -/
theorem c5_resolveEndpoints :
    getFeedsForRoutes none = ALL_FEEDS ∧
    getFeedsForRoutes (some []) = ALL_FEEDS ∧
    getFeedsForRoutes (some ["A", "C"]) = [FeedId.ACE] ∧
    (∀ rs : List String, rs ≠ [] →
      (getFeedsForRoutes (some rs)).Nodup ∧
        ∀ fid : FeedId, fid ∈ getFeedsForRoutes (some rs) ↔
          ∃ r ∈ rs, getFeedForRoute r = fid) ∧
    (∀ r : String, jsMapGet ROUTE_TO_FEED (jsToUpper r) = none →
      getFeedForRoute r = FeedId.Default) ∧
    (∀ r : String, getFeedForRoute r =
      (jsMapGet ROUTE_TO_FEED (jsToUpper r)).getD FeedId.Default) ∧
    getFeedForRoute "a" = FeedId.ACE ∧ getFeedForRoute "A" = FeedId.ACE := by
  refine ⟨rfl, rfl, by decide, ?_, ?_, fun r => rfl, by decide, by decide⟩
  · intro rs hrs
    have hun : getFeedsForRoutes (some rs) =
        rs.foldl (fun acc r => insertUnique acc (getFeedForRoute r)) [] := by
      unfold getFeedsForRoutes
      dsimp only
      rw [if_neg hrs]
    rw [hun]
    refine ⟨getFeedsForRoutes_foldl_nodup rs [] List.nodup_nil, fun fid => ?_⟩
    rw [getFeedsForRoutes_foldl_mem]
    simp
  · intro r hr
    unfold getFeedForRoute
    rw [hr]
    rfl

/-- Witness for C5: the single line 7 resolves to a deduplicated set
containing the Default endpoint, and the unknown line id XX resolves to
the Default endpoint. -/
theorem c5_resolveEndpoints_witness :
    ((["7"] : List String) ≠ [] ∧
      (getFeedsForRoutes (some ["7"])).Nodup ∧
      (FeedId.Default ∈ getFeedsForRoutes (some ["7"]) ↔
        ∃ r ∈ (["7"] : List String), getFeedForRoute r = FeedId.Default)) ∧
    jsMapGet ROUTE_TO_FEED (jsToUpper ("XX")) = none ∧
    getFeedForRoute "XX" = FeedId.Default := by
  have h := c5_resolveEndpoints
  have hne : (["7"] : List String) ≠ [] := by simp
  have hxx : jsMapGet ROUTE_TO_FEED (jsToUpper ("XX")) = none := by decide
  exact ⟨⟨hne, (h.2.2.2.1 ["7"] hne).1, (h.2.2.2.1 ["7"] hne).2 FeedId.Default⟩,
    hxx, h.2.2.2.2.1 "XX" hxx⟩

/-! Claim C10. -/

/-- C10: fallbackDirection only ever returns N, S, or UNK, never E or W;
consequently every fallback-path vehicle gets canonical bearing 0 or 180,
and the east and west canonical-bearing branches (90 and 270) of the
fallback assignment are unreachable. -/
theorem c10_fallback_never_east_west :
    ∀ stopId tripId : Option String,
      (fallbackDirection stopId tripId = CardinalDirection.N ∨
        fallbackDirection stopId tripId = CardinalDirection.S ∨
        fallbackDirection stopId tripId = CardinalDirection.UNK) ∧
      fallbackDirection stopId tripId ≠ CardinalDirection.E ∧
      fallbackDirection stopId tripId ≠ CardinalDirection.W ∧
      ((fallbackBearing (fallbackDirection stopId tripId) : ℝ) = 0 ∨
        (fallbackBearing (fallbackDirection stopId tripId) : ℝ) = 180) := by
  intro stopId tripId
  obtain h | h | h := fallbackDirection_cases stopId tripId <;> rw [h]
  · exact ⟨Or.inl rfl, by decide, by decide, Or.inl rfl⟩
  · exact ⟨Or.inr (Or.inl rfl), by decide, by decide, Or.inr rfl⟩
  · exact ⟨Or.inr (Or.inr rfl), by decide, by decide, Or.inl rfl⟩

/-! Retry lemmas and claim C7. -/

lemma retryGo_eq (outcome : ℕ → Except String FeedMessage)
    (aborted : ℕ → Bool) (attempt remaining : ℕ) :
    retryGo outcome aborted attempt remaining =
      match outcome attempt with
      | .ok m => ⟨.ok m, attempt + 1, []⟩
      | .error e =>
        if aborted attempt then ⟨.error e, attempt + 1, []⟩
        else
          match remaining with
          | 0 => ⟨.error e, attempt + 1, []⟩
          | r + 1 =>
            let rest := retryGo outcome aborted (attempt + 1) r
            ⟨rest.result, rest.attemptsMade,
              RETRY_DELAY_MS * ((attempt : ℤ) + 1) :: rest.delays⟩ := by
  conv_lhs => rw [retryGo]

lemma retryGo_zero (outcome : ℕ → Except String FeedMessage)
    (aborted : ℕ → Bool) (attempt : ℕ) :
    retryGo outcome aborted attempt 0 = ⟨outcome attempt, attempt + 1, []⟩ := by
  rw [retryGo_eq]
  rcases h : outcome attempt with e | m
  · by_cases hab : aborted attempt <;> simp [hab]
  · simp

/-- C7: retry policy with noRetry false.  When the first attempt fails
and the caller's abort signal is not set at the failure, exactly one
retry runs after a backoff delay equal to the base delay times the
one-based number of the failed attempt, and the final outcome is the
second attempt's outcome with two attempts made; when the abort signal
is set at the failure, the error propagates immediately after a single
attempt with no backoff wait. -/
theorem c7_retry_policy :
    ∀ (outcome : ℕ → Except String FeedMessage) (aborted : ℕ → Bool)
      (e : String),
      (outcome 0 = Except.error e → aborted 0 = false →
        fetchWithRetry outcome aborted MAX_RETRIES =
          ⟨outcome 1, 2, [RETRY_DELAY_MS * 1]⟩) ∧
      (outcome 0 = Except.error e → aborted 0 = true →
        fetchWithRetry outcome aborted MAX_RETRIES =
          ⟨Except.error e, 1, []⟩) := by
  intro outcome aborted e
  constructor
  · intro h0 hab
    unfold fetchWithRetry MAX_RETRIES
    rw [retryGo_eq, h0, hab]
    simp [retryGo_zero]
  · intro h0 hab
    unfold fetchWithRetry MAX_RETRIES
    rw [retryGo_eq, h0, hab]
    simp

/-- Witness for C7: a first attempt failing with a timeout, once with a
clear abort signal and once with a set abort signal. -/
theorem c7_retry_policy_witness :
    (exampleRetryOutcome 0 = Except.error ("timeout") ∧
      (fun _ : ℕ => false) 0 = false ∧
      fetchWithRetry exampleRetryOutcome (fun _ => false) MAX_RETRIES =
        ⟨exampleRetryOutcome 1, 2, [RETRY_DELAY_MS * 1]⟩) ∧
    ((fun _ : ℕ => true) 0 = true ∧
      fetchWithRetry exampleRetryOutcome (fun _ => true) MAX_RETRIES =
        ⟨Except.error ("timeout"), 1, []⟩) := by
  refine ⟨⟨rfl, rfl, ?_⟩, rfl, ?_⟩
  · exact (c7_retry_policy exampleRetryOutcome (fun _ => false) ("timeout")).1
      rfl rfl
  · exact (c7_retry_policy exampleRetryOutcome (fun _ => true) ("timeout")).2
      rfl rfl

/-! Claim C6. -/

/-- C6: cache policy of fetchFeed.  With a positive TTL and a cache entry
younger than the TTL the cached message is returned unchanged with no
network use; with TTL zero the network path always runs and its outcome
is returned regardless of the cache; and after any successful network
fetch the cache entry for the endpoint holds the new message stamped
with the completion time. -/
theorem c6_cache_policy :
    ∀ (cache : List (FeedId × FCacheEntry)) (feedId : FeedId)
      (cacheTtlMs now completionTime : ℤ) (net : Except String FeedMessage),
      (∀ entry : FCacheEntry, 0 < cacheTtlMs →
        jsMapGet cache feedId = some entry →
        now - entry.fetchedAt < cacheTtlMs →
        fetchFeedM cache feedId cacheTtlMs now completionTime net =
          ⟨Except.ok entry.message, cache, false⟩) ∧
      ((fetchFeedM cache feedId 0 now completionTime net).networkUsed = true ∧
        (fetchFeedM cache feedId 0 now completionTime net).result = net) ∧
      (∀ m : FeedMessage, net = Except.ok m →
        (fetchFeedM cache feedId cacheTtlMs now completionTime net).networkUsed
            = true →
        jsMapGet
            (fetchFeedM cache feedId cacheTtlMs now completionTime net).cache
            feedId = some ⟨m, completionTime⟩) := by
  intro cache feedId cacheTtlMs now completionTime net
  refine ⟨?_, ?_, ?_⟩
  · intro entry h1 h2 h3
    simp [fetchFeedM, h1, h2, h3]
  · rcases net with e | m <;> simp [fetchFeedM]
  · intro m hm hnet
    subst hm
    simp only [fetchFeedM] at hnet ⊢
    rcases hcached : (if 0 < cacheTtlMs then
        match jsMapGet cache feedId with
        | some entry =>
          if now - entry.fetchedAt < cacheTtlMs then some entry.message
          else none
        | none => none
      else none) with _ | mm
    · rw [hcached]
      dsimp only
      rw [jsMapGet_jsMapSet, if_pos rfl]
    · rw [hcached] at hnet
      simp at hnet

/-- Witness for C6: a fresh cache hit for the G feed at TTL 10, the
TTL-zero bypass, and the cache write after a stale entry is refreshed. -/
theorem c6_cache_policy_witness :
    ((0 : ℤ) < 10 ∧
      jsMapGet exampleCache FeedId.G = some ⟨⟨some []⟩, 5⟩ ∧
      (8 : ℤ) - 5 < 10 ∧
      fetchFeedM exampleCache FeedId.G 10 8 9 (Except.error ("x")) =
        ⟨Except.ok ⟨some []⟩, exampleCache, false⟩) ∧
    ((fetchFeedM exampleCache FeedId.G 0 8 9
        (Except.ok ⟨some []⟩)).networkUsed = true) ∧
    ((Except.ok (⟨some []⟩ : FeedMessage) : Except String FeedMessage) =
        Except.ok ⟨some []⟩ ∧
      (fetchFeedM exampleCache FeedId.G 10 99 100
          (Except.ok ⟨some []⟩)).networkUsed = true ∧
      jsMapGet (fetchFeedM exampleCache FeedId.G 10 99 100
          (Except.ok ⟨some []⟩)).cache FeedId.G = some ⟨⟨some []⟩, 100⟩) := by
  have h1 := (c6_cache_policy exampleCache FeedId.G 10 8 9
    (Except.error ("x"))).1 ⟨⟨some []⟩, 5⟩ (by norm_num) (by decide) (by norm_num)
  have h2 := (c6_cache_policy exampleCache FeedId.G 0 8 9
    (Except.ok ⟨some []⟩)).2.1.1
  have h3 := (c6_cache_policy exampleCache FeedId.G 10 99 100
    (Except.ok ⟨some []⟩)).2.2 ⟨some []⟩ rfl (by decide)
  exact ⟨⟨by norm_num, by decide, by norm_num, h1⟩, h2, rfl, by decide, h3⟩

/-! Batch fetch lemmas and claim C3. -/

lemma settleFold_results_isSome
    (l : List (FeedId × Except String FeedMessage))
    (acc : List (FeedId × FeedMessage) × List (FeedId × String)) (k : FeedId) :
    (jsMapGet (l.foldl settleStep acc).1 k).isSome = true ↔
      (jsMapGet acc.1 k).isSome = true ∨ ∃ m, (k, Except.ok m) ∈ l := by
  induction l generalizing acc with
  | nil => simp
  | cons hd tl ih =>
    obtain ⟨k₀, out⟩ := hd
    rw [List.foldl_cons, ih]
    rcases out with e | m
    · dsimp only [settleStep]
      constructor
      · rintro (h | ⟨m, hm⟩)
        · exact Or.inl h
        · exact Or.inr ⟨m, List.mem_cons_of_mem _ hm⟩
      · rintro (h | ⟨m, hm⟩)
        · exact Or.inl h
        · rcases List.mem_cons.mp hm with heq | hmem
          · simp at heq
          · exact Or.inr ⟨m, hmem⟩
    · dsimp only [settleStep]
      rw [jsMapGet_jsMapSet]
      constructor
      · rintro (h | ⟨m', hm'⟩)
        · by_cases hk : k₀ = k
          · subst hk
            exact Or.inr ⟨m, List.mem_cons_self _ _⟩
          · rw [if_neg hk] at h
            exact Or.inl h
        · exact Or.inr ⟨m', List.mem_cons_of_mem _ hm'⟩
      · rintro (h | ⟨m', hm'⟩)
        · left
          by_cases hk : k₀ = k
          · rw [if_pos hk]
            rfl
          · rw [if_neg hk]
            exact h
        · rcases List.mem_cons.mp hm' with heq | hmem
          · left
            injection heq with h1 h2
            rw [if_pos h1.symm]
            rfl
          · exact Or.inr ⟨m', hmem⟩

lemma settleFold_errors_isSome
    (l : List (FeedId × Except String FeedMessage))
    (acc : List (FeedId × FeedMessage) × List (FeedId × String)) (k : FeedId) :
    (jsMapGet (l.foldl settleStep acc).2 k).isSome = true ↔
      (jsMapGet acc.2 k).isSome = true ∨ ∃ e, (k, Except.error e) ∈ l := by
  induction l generalizing acc with
  | nil => simp
  | cons hd tl ih =>
    obtain ⟨k₀, out⟩ := hd
    rw [List.foldl_cons, ih]
    rcases out with e | m
    · dsimp only [settleStep]
      rw [jsMapGet_jsMapSet]
      constructor
      · rintro (h | ⟨e', he'⟩)
        · by_cases hk : k₀ = k
          · subst hk
            exact Or.inr ⟨e, List.mem_cons_self _ _⟩
          · rw [if_neg hk] at h
            exact Or.inl h
        · exact Or.inr ⟨e', List.mem_cons_of_mem _ he'⟩
      · rintro (h | ⟨e', he'⟩)
        · left
          by_cases hk : k₀ = k
          · rw [if_pos hk]
            rfl
          · rw [if_neg hk]
            exact h
        · rcases List.mem_cons.mp he' with heq | hmem
          · left
            injection heq with h1 h2
            rw [if_pos h1.symm]
            rfl
          · exact Or.inr ⟨e', hmem⟩
    · dsimp only [settleStep]
      constructor
      · rintro (h | ⟨e', he'⟩)
        · exact Or.inl h
        · exact Or.inr ⟨e', List.mem_cons_of_mem _ he'⟩
      · rintro (h | ⟨e', he'⟩)
        · exact Or.inl h
        · rcases List.mem_cons.mp he' with heq | hmem
          · simp at heq
          · exact Or.inr ⟨e', hmem⟩

lemma settleFold_results_of_errors
    (l : List (FeedId × Except String FeedMessage))
    (acc : List (FeedId × FeedMessage) × List (FeedId × String))
    (h : ∀ r ∈ l, ∃ e, r.2 = Except.error e) :
    (l.foldl settleStep acc).1 = acc.1 := by
  induction l generalizing acc with
  | nil => rfl
  | cons hd tl ih =>
    obtain ⟨k₀, out⟩ := hd
    obtain ⟨e, he⟩ := h _ (List.mem_cons_self _ _)
    dsimp only at he
    subst he
    rw [List.foldl_cons]
    exact ih _ (fun r hr => h r (List.mem_cons_of_mem _ hr))

lemma fetchFeeds_results_isSome (ids : List FeedId)
    (f : FeedId → Except String FeedMessage) (k : FeedId) :
    (jsMapGet (fetchFeeds ids f).1 k).isSome = true ↔
      k ∈ ids ∧ ∃ m, f k = Except.ok m := by
  unfold fetchFeeds
  rw [settleFold_results_isSome]
  constructor
  · rintro (h | ⟨m, hm⟩)
    · simp [jsMapGet] at h
    · rcases List.mem_map.mp hm with ⟨id, hid, heq⟩
      injection heq with h1 h2
      subst h1
      exact ⟨hid, m, h2⟩
  · rintro ⟨hk, m, hm⟩
    exact Or.inr ⟨m, List.mem_map.mpr ⟨k, hk, by rw [hm]⟩⟩

lemma fetchFeeds_errors_isSome (ids : List FeedId)
    (f : FeedId → Except String FeedMessage) (k : FeedId) :
    (jsMapGet (fetchFeeds ids f).2 k).isSome = true ↔
      k ∈ ids ∧ ∃ e, f k = Except.error e := by
  unfold fetchFeeds
  rw [settleFold_errors_isSome]
  constructor
  · rintro (h | ⟨e, he⟩)
    · simp [jsMapGet] at h
    · rcases List.mem_map.mp he with ⟨id, hid, heq⟩
      injection heq with h1 h2
      subst h1
      exact ⟨hid, e, h2⟩
  · rintro ⟨hk, e, he⟩
    exact Or.inr ⟨e, List.mem_map.mpr ⟨k, hk, by rw [he]⟩⟩

lemma fetchFeeds_results_nil_of_all_error (ids : List FeedId)
    (f : FeedId → Except String FeedMessage)
    (h : ∀ id ∈ ids, ∃ e, f id = Except.error e) :
    (fetchFeeds ids f).1 = [] := by
  unfold fetchFeeds
  rw [settleFold_results_of_errors]
  intro r hr
  rcases List.mem_map.mp hr with ⟨id, hid, heq⟩
  subst heq
  exact h id hid

/-- C3: the batch fetch always resolves with a partition of the requested
endpoints: an endpoint appears in the results map exactly when it was
requested and its fetch succeeded, in the errors map exactly when it was
requested and its fetch failed, and never in both; a failing endpoint
does not prevent siblings from being fetched, so three endpoints with
one success and two failures yield one result and two errors. -/
theorem c3_fetchFeeds_partition :
    (∀ (ids : List FeedId) (f : FeedId → Except String FeedMessage)
        (k : FeedId),
      ((jsMapGet (fetchFeeds ids f).1 k).isSome = true ↔
        k ∈ ids ∧ ∃ m, f k = Except.ok m) ∧
      ((jsMapGet (fetchFeeds ids f).2 k).isSome = true ↔
        k ∈ ids ∧ ∃ e, f k = Except.error e) ∧
      ¬((jsMapGet (fetchFeeds ids f).1 k).isSome = true ∧
        (jsMapGet (fetchFeeds ids f).2 k).isSome = true)) ∧
    (fetchFeeds [FeedId.Default, FeedId.ACE, FeedId.G]
      exampleBatchOutcome).1.length = 1 ∧
    (fetchFeeds [FeedId.Default, FeedId.ACE, FeedId.G]
      exampleBatchOutcome).2.length = 2 := by
  refine ⟨?_, by decide, by decide⟩
  intro ids f k
  refine ⟨fetchFeeds_results_isSome ids f k,
    fetchFeeds_errors_isSome ids f k, ?_⟩
  rintro ⟨hres, herr⟩
  obtain ⟨-, m, hm⟩ := (fetchFeeds_results_isSome ids f k).mp hres
  obtain ⟨-, e, he⟩ := (fetchFeeds_errors_isSome ids f k).mp herr
  rw [hm] at he
  exact Except.noConfusion he

/-- Witness for C3 at a concrete batch: the Default endpoint succeeded
and is in results, the G endpoint failed and is in errors. -/
theorem c3_fetchFeeds_partition_witness :
    ((jsMapGet (fetchFeeds [FeedId.Default, FeedId.ACE, FeedId.G]
        exampleBatchOutcome).1 FeedId.Default).isSome = true ↔
      FeedId.Default ∈ [FeedId.Default, FeedId.ACE, FeedId.G] ∧
        ∃ m, exampleBatchOutcome FeedId.Default = Except.ok m) ∧
    ((jsMapGet (fetchFeeds [FeedId.Default, FeedId.ACE, FeedId.G]
        exampleBatchOutcome).2 FeedId.G).isSome = true ↔
      FeedId.G ∈ [FeedId.Default, FeedId.ACE, FeedId.G] ∧
        ∃ e, exampleBatchOutcome FeedId.G = Except.error e) := by
  exact ⟨(c3_fetchFeeds_partition.1 [FeedId.Default, FeedId.ACE, FeedId.G]
      exampleBatchOutcome FeedId.Default).1,
    (c3_fetchFeeds_partition.1 [FeedId.Default, FeedId.ACE, FeedId.G]
      exampleBatchOutcome FeedId.G).2.1⟩

/-! Claim C2. -/

/-- C2 counterexample: with every endpoint failing, fetchArrivals returns
the empty list but neither logs anything nor sets the mode to mock — the
mode stays live and the log is empty, contrary to the claim that each
public read operation logs and switches the mode. -/
theorem c2_counterexample :
    fetchArrivalsM exampleFailingFetch ("A15") FeedMode.live 0 =
      ([], FeedMode.live, []) := rfl

/-- C2 as amended: when every endpoint fails, fetchVehicles and fetchAll
log the aggregated error messages, set the mode to mock and return the
non-empty synthetic vehicle list drawn from the fixed seed set (fetchAll
with empty arrivals and alerts); fetchArrivals and fetchAlerts merely
return empty lists, without logging and with the mode left unchanged. -/
theorem c2_total_failure_policy
    (stations : String → Option (StopCoords ℝ))
    (f : FeedId → Except String FeedMessage) (routes : Option (List String))
    (stationId : String) (mode0 : FeedMode) (nowMs nowSec : ℤ)
    (rand : ℕ → ℝ)
    (hAll : ∀ id, ∃ e, f id = Except.error e) :
    fetchVehiclesM stations f routes nowMs rand =
      (getMockTrains nowMs rand, FeedMode.mock,
        [allFailedLog (fetchFeeds (getFeedsForRoutes routes) f).2]) ∧
    (getMockTrains (α := ℝ) nowMs rand).length = 6 ∧
    (getMockTrains (α := ℝ) nowMs rand).map (fun v => (v.id, v.routeId)) =
      (SEED_TRAINS (α := ℝ)).map (fun s => (s.id, s.routeId)) ∧
    fetchAllM stations f routes nowMs nowSec rand =
      (⟨getMockTrains nowMs rand, [], []⟩, FeedMode.mock,
        [allFailedLog (fetchFeeds (getFeedsForRoutes routes) f).2]) ∧
    fetchArrivalsM f stationId mode0 nowSec = ([], mode0, []) ∧
    fetchAlertsM f routes mode0 = ([], mode0, []) := by
  have h1 : (fetchFeeds (getFeedsForRoutes routes) f).1 = [] :=
    fetchFeeds_results_nil_of_all_error _ f (fun id _ => hAll id)
  have h2 : (fetchFeeds ALL_FEEDS f).1 = [] :=
    fetchFeeds_results_nil_of_all_error _ f (fun id _ => hAll id)
  refine ⟨?_, rfl, rfl, ?_, ?_, ?_⟩
  · simp [fetchVehiclesM, h1]
  · simp [fetchAllM, h1]
  · simp [fetchArrivalsM, h2]
  · simp [fetchAlertsM, h2]

/-- Witness for C2 at a concrete total outage: the all-endpoints-failing
oracle, a trivial station table and constant random draws. -/
theorem c2_total_failure_policy_witness :
    (∀ id, ∃ e, exampleFailingFetch id = Except.error e) ∧
    fetchVehiclesM (fun _ => none) exampleFailingFetch none 0 (fun _ => 0) =
      (getMockTrains 0 (fun _ => 0), FeedMode.mock,
        [allFailedLog
          (fetchFeeds (getFeedsForRoutes none) exampleFailingFetch).2]) ∧
    (getMockTrains (α := ℝ) 0 (fun _ => 0)).length = 6 ∧
    fetchArrivalsM exampleFailingFetch ("A15") FeedMode.live 0 =
      ([], FeedMode.live, []) ∧
    fetchAlertsM exampleFailingFetch none FeedMode.live =
      ([], FeedMode.live, []) := by
  have hAll : ∀ id, ∃ e, exampleFailingFetch id = Except.error e :=
    fun _ => ⟨"offline", rfl⟩
  have h := c2_total_failure_policy (fun _ => none) exampleFailingFetch none
    ("A15") FeedMode.live 0 0 (fun _ => 0) hAll
  exact ⟨hAll, h.1, h.2.1, h.2.2.2.2.1, h.2.2.2.2.2⟩

/-! Trip update mapper lemmas and claim C8. -/

lemma mem_mapTripUpdatesSpec_bounds (nowSec : ℤ) (feed : FeedMessage)
    (p : ArrivalPrediction) (hp : p ∈ mapTripUpdatesSpec nowSec feed) :
    nowSec ≤ p.arrivalTime ∧ p.arrivalTime ≠ 0 := by
  unfold mapTripUpdatesSpec at hp
  obtain ⟨e, _, hpe⟩ := List.mem_flatMap.mp hp
  split at hpe
  · simp at hpe
  · split at hpe
    · simp at hpe
    · split_ifs at hpe
      · simp at hpe
      · obtain ⟨st, _, hsome⟩ := List.mem_filterMap.mp hpe
        split at hsome
        · exact Option.noConfusion hsome
        · split_ifs at hsome with h1 h2 h3
          all_goals first
            | exact Option.noConfusion hsome
            | (injection hsome with hrec; subst hrec; exact ⟨h2.2, h2.1⟩)

/-- C8: the trip update mapper agrees with the specification wording —
one prediction per stop-time update with a stop id of each trip-update
entity with a known route id, keeping exactly the entries whose
effective time (arrival if present and non-zero, else departure) is
non-zero and not strictly before now — and consequently every returned
prediction has an effective arrival time at least now and non-zero. -/
theorem c8_mapTripUpdates_future_only :
    ∀ (nowSec : ℤ) (feed : FeedMessage),
      mapTripUpdates nowSec feed = mapTripUpdatesSpec nowSec feed ∧
      ∀ p ∈ mapTripUpdates nowSec feed,
        nowSec ≤ p.arrivalTime ∧ p.arrivalTime ≠ 0 := by
  intro nowSec feed
  have heq : mapTripUpdates nowSec feed = mapTripUpdatesSpec nowSec feed := by
    unfold mapTripUpdates mapTripUpdatesSpec
    congr 1
    funext e
    unfold mapTripUpdateEntity
    cases e.tripUpdate with
    | none => rfl
    | some tu =>
      dsimp only
      cases (tu.trip.bind TripDescriptor.routeId).map jsToUpper with
      | none => rfl
      | some routeId =>
        dsimp only
        by_cases hr : routeId = ""
        · rw [if_pos hr, if_pos hr]
        · rw [if_neg hr, if_neg hr]
          congr 1
          funext st
          unfold mapStopTime
          cases st.stopId with
          | none => rfl
          | some stopId =>
            dsimp only
            by_cases hsid : stopId = ""
            · rw [if_pos hsid, if_pos hsid]
            · rw [if_neg hsid, if_neg hsid]
              have heff : (if toSeconds (st.arrival.bind StopTimeEvent.time) ≠ 0
                  then toSeconds (st.arrival.bind StopTimeEvent.time)
                  else toSeconds (st.departure.bind StopTimeEvent.time)) =
                    specEffectiveTime st := by
                unfold specEffectiveTime toSeconds
                cases st.arrival.bind StopTimeEvent.time with
                | none => simp
                | some a =>
                  by_cases h0 : a = 0 <;> simp [h0]
              rw [heff]
              by_cases hcond : specEffectiveTime st ≠ 0 ∧
                  nowSec ≤ specEffectiveTime st
              · have hno : ¬(specEffectiveTime st = 0 ∨
                    specEffectiveTime st < nowSec) := by
                  rintro (h | h)
                  · exact hcond.1 h
                  · exact absurd hcond.2 (not_le.mpr h)
                rw [if_neg hno, if_pos hcond]
              · have hyes : specEffectiveTime st = 0 ∨
                    specEffectiveTime st < nowSec := by
                  push_neg at hcond
                  by_cases h0 : specEffectiveTime st = 0
                  · exact Or.inl h0
                  · exact Or.inr (hcond h0)
                rw [if_pos hyes, if_neg hcond]
  exact ⟨heq, fun p hp =>
    mem_mapTripUpdatesSpec_bounds nowSec feed p (heq ▸ hp)⟩

/-- Witness for C8: a concrete feed with one future stop-time update at
epoch second 100 queried at now 50. -/
theorem c8_mapTripUpdates_future_only_witness :
    exampleArrivalPrediction ∈ mapTripUpdates 50 exampleArrivalFeed ∧
    (50 : ℤ) ≤ exampleArrivalPrediction.arrivalTime ∧
    exampleArrivalPrediction.arrivalTime ≠ 0 := by
  have hmem : exampleArrivalPrediction ∈ mapTripUpdates 50 exampleArrivalFeed := by
    decide
  exact ⟨hmem,
    (c8_mapTripUpdates_future_only 50 exampleArrivalFeed).2 _ hmem⟩

/-! Alert mapper lemmas and claim C9. -/

lemma enLike_pred_eq (tr : Translation) :
    (langFalsy tr.language || decide (tr.language = some ("en"))) =
      decide (tr.language = none ∨ tr.language = some ("") ∨
        tr.language = some ("en")) := by
  rcases hl : tr.language with _ | s
  · simp [langFalsy]
  · by_cases hs : s = ""
    · subst hs
      simp [langFalsy]
    · simp [langFalsy, hs]

lemma extractTranslatedText_found (l : List Translation) (tr : Translation)
    (hfind : l.find? (fun tr => decide (tr.language = none ∨
      tr.language = some ("") ∨ tr.language = some ("en"))) = some tr) :
    extractTranslatedText (some ⟨some l⟩) = tr.text.getD ("") := by
  cases l with
  | nil => simp at hfind
  | cons t0 rest =>
    simp only [extractTranslatedText, Option.bind]
    rw [funext enLike_pred_eq, hfind]

lemma extractTranslatedText_fallback (t0 : Translation)
    (rest : List Translation)
    (hfind : (t0 :: rest).find? (fun tr => decide (tr.language = none ∨
      tr.language = some ("") ∨ tr.language = some ("en"))) = none) :
    extractTranslatedText (some ⟨some (t0 :: rest)⟩) = t0.text.getD ("") := by
  simp only [extractTranslatedText, Option.bind]
  rw [funext enLike_pred_eq, hfind]

lemma mapAlertsStep_preserves (acc : List ServiceAlert) (e : FeedEntity)
    (hacc : ∀ a ∈ acc, ¬(a.header = "" ∧ a.description = "")) :
    ∀ a ∈ mapAlertsStep acc e, ¬(a.header = "" ∧ a.description = "") := by
  intro a ha
  unfold mapAlertsStep at ha
  split at ha
  · exact hacc a ha
  · dsimp only at ha
    split_ifs at ha with hdrop
    · exact hacc a ha
    · rcases List.mem_append.mp ha with h | h
      · exact hacc a h
      · rcases List.mem_singleton.mp h with rfl
        exact hdrop

lemma mapAlerts_foldl_nonempty (entities : List FeedEntity)
    (acc : List ServiceAlert)
    (hacc : ∀ a ∈ acc, ¬(a.header = "" ∧ a.description = "")) :
    ∀ a ∈ entities.foldl mapAlertsStep acc,
      ¬(a.header = "" ∧ a.description = "") := by
  induction entities generalizing acc with
  | nil => exact hacc
  | cons e rest ih =>
    rw [List.foldl_cons]
    exact ih _ (mapAlertsStep_preserves acc e hacc)

/-- C9 counterexample: with a French-tagged first translation and an
untagged second translation, no translation is tagged en, yet the code
selects the untagged one rather than the first available, so the header
is the untagged text and not the first translation's text. -/
theorem c9_counterexample :
    extractTranslatedText (some ⟨some exampleTranslations⟩) = "hi" ∧
    exampleTranslations.all (fun tr => !(tr.language == some ("en"))) = true ∧
    exampleTranslations.head?.map (fun tr => tr.text.getD ("")) =
      some ("bonjour") := by decide

/-- C9 as amended: the header and description of each emitted alert are
obtained by selecting the first translation whose language tag is
absent, empty, or en; if no such translation exists, the first
translation; and the empty string when there are no translations at
all.  An alert whose extracted header and description are both empty is
not emitted. -/
theorem c9_alert_text_extraction :
    (extractTranslatedText none = "" ∧
      extractTranslatedText (some ⟨none⟩) = "" ∧
      extractTranslatedText (some ⟨some []⟩) = "") ∧
    (∀ (l : List Translation) (tr : Translation),
      l.find? (fun tr => decide (tr.language = none ∨
        tr.language = some ("") ∨ tr.language = some ("en"))) = some tr →
      extractTranslatedText (some ⟨some l⟩) = tr.text.getD ("")) ∧
    (∀ (t0 : Translation) (rest : List Translation),
      (t0 :: rest).find? (fun tr => decide (tr.language = none ∨
        tr.language = some ("") ∨ tr.language = some ("en"))) = none →
      extractTranslatedText (some ⟨some (t0 :: rest)⟩) = t0.text.getD ("")) ∧
    (∀ (feed : FeedMessage) (a : ServiceAlert), a ∈ mapAlerts feed →
      ¬(a.header = "" ∧ a.description = "")) := by
  refine ⟨⟨rfl, rfl, rfl⟩, extractTranslatedText_found,
    extractTranslatedText_fallback, ?_⟩
  intro feed a ha
  exact mapAlerts_foldl_nonempty (feed.entity.getD []) [] (by simp) a ha

/-- Witness for C9: the untagged translation of the fixture list is
selected, and the concrete alert of the alert fixture feed is emitted
with a non-empty header. -/
theorem c9_alert_text_extraction_witness :
    (exampleTranslations.find? (fun tr => decide (tr.language = none ∨
        tr.language = some ("") ∨ tr.language = some ("en"))) =
      some ⟨some ("hi"), none⟩) ∧
    extractTranslatedText (some ⟨some exampleTranslations⟩) =
      (Translation.mk (some ("hi")) none).text.getD ("") ∧
    exampleServiceAlert ∈ mapAlerts exampleAlertFeed ∧
    ¬(exampleServiceAlert.header = "" ∧ exampleServiceAlert.description = "") := by
  have hfind : exampleTranslations.find? (fun tr => decide (tr.language = none ∨
      tr.language = some ("") ∨ tr.language = some ("en"))) =
        some ⟨some ("hi"), none⟩ := by decide
  have hmem : exampleServiceAlert ∈ mapAlerts exampleAlertFeed := by decide
  exact ⟨hfind,
    c9_alert_text_extraction.2.1 exampleTranslations ⟨some ("hi"), none⟩ hfind,
    hmem,
    c9_alert_text_extraction.2.2.2 exampleAlertFeed exampleServiceAlert hmem⟩

/-! Bearing range lemmas. -/

lemma jsMod360_bounds {α : Type} [LinearOrderedField α] [FloorRing α]
    (a : α) (ha : 0 ≤ a) : 0 ≤ jsMod a 360 ∧ jsMod a 360 < 360 := by
  unfold jsMod jsTrunc
  have hq : 0 ≤ a / 360 := div_nonneg ha (by norm_num)
  rw [if_pos hq]
  have hcancel : a / 360 * 360 = a := div_mul_cancel₀ a (by norm_num)
  have hfl : ((⌊a / 360⌋ : ℤ) : α) ≤ a / 360 := Int.floor_le _
  have hfu : a / 360 < ((⌊a / 360⌋ : ℤ) : α) + 1 := Int.lt_floor_add_one _
  constructor
  · have h1 : ((⌊a / 360⌋ : ℤ) : α) * 360 ≤ a / 360 * 360 :=
      mul_le_mul_of_nonneg_right hfl (by norm_num)
    rw [hcancel] at h1
    linarith
  · have h2 : a / 360 * 360 < (((⌊a / 360⌋ : ℤ) : α) + 1) * 360 :=
      mul_lt_mul_of_pos_right hfu (by norm_num)
    rw [hcancel] at h2
    linarith

lemma wrapBearing_bounds {α : Type} [LinearOrderedField α] [FloorRing α]
    (x : α) : 0 ≤ wrapBearing x ∧ wrapBearing x < 360 := by
  unfold wrapBearing
  by_cases hx : 0 ≤ x
  · obtain ⟨h1, h2⟩ := jsMod360_bounds x hx
    rw [if_neg (not_lt.mpr h1)]
    exact ⟨h1, h2⟩
  · push_neg at hx
    unfold jsMod jsTrunc
    have hq : ¬ 0 ≤ x / 360 :=
      not_le.mpr (div_neg_of_neg_of_pos hx (by norm_num))
    rw [if_neg hq]
    have hcancel : x / 360 * 360 = x := div_mul_cancel₀ x (by norm_num)
    have hcl : x / 360 ≤ ((⌈x / 360⌉ : ℤ) : α) := Int.le_ceil _
    have hcu : ((⌈x / 360⌉ : ℤ) : α) < x / 360 + 1 := Int.ceil_lt_add_one _
    have h1 : x / 360 * 360 ≤ ((⌈x / 360⌉ : ℤ) : α) * 360 :=
      mul_le_mul_of_nonneg_right hcl (by norm_num)
    have h2 : ((⌈x / 360⌉ : ℤ) : α) * 360 < (x / 360 + 1) * 360 :=
      mul_lt_mul_of_pos_right hcu (by norm_num)
    rw [hcancel] at h1
    have h3 : (x / 360 + 1) * 360 = x + 360 := by
      rw [add_mul, hcancel]
      ring
    rw [h3] at h2
    by_cases hneg : x - 360 * ((⌈x / 360⌉ : ℤ) : α) < 0
    · rw [if_pos hneg]
      constructor
      · linarith
      · linarith
    · rw [if_neg hneg]
      push_neg at hneg
      exact ⟨hneg, by linarith⟩

lemma atan2_bounds (y x : ℝ) : -Real.pi < atan2 y x ∧ atan2 y x ≤ Real.pi :=
  ⟨Complex.neg_pi_lt_arg _, Complex.arg_le_pi _⟩

lemma computeBearing_bounds (lat1 lon1 lat2 lon2 : ℝ) :
    0 ≤ computeBearing lat1 lon1 lat2 lon2 ∧
      computeBearing lat1 lon1 lat2 lon2 < 360 := by
  unfold computeBearing
  dsimp only
  apply jsMod360_bounds
  obtain ⟨hl, _⟩ := atan2_bounds
    (Real.sin ((lon2 - lon1) * (Real.pi / 180)) *
      Real.cos (lat2 * (Real.pi / 180)))
    (Real.cos (lat1 * (Real.pi / 180)) * Real.sin (lat2 * (Real.pi / 180)) -
      Real.sin (lat1 * (Real.pi / 180)) * Real.cos (lat2 * (Real.pi / 180)) *
        Real.cos ((lon2 - lon1) * (Real.pi / 180)))
  have hpos : 0 < 180 / Real.pi := div_pos (by norm_num) Real.pi_pos
  have h1 := mul_lt_mul_of_pos_right hl hpos
  have h2 : -Real.pi * (180 / Real.pi) = -180 := by
    field_simp
    ring
  rw [h2] at h1
  linarith

/-! Cardinal value lemmas at the canonical fallback bearings. -/

lemma cardinalFromBearing_ne_UNK {α : Type} [LinearOrderedField α] (b : α) :
    cardinalFromBearing b ≠ CardinalDirection.UNK := by
  unfold cardinalFromBearing
  split_ifs <;> decide

lemma cardinalFromBearing_zero_real : cardinalFromBearing (0 : ℝ) = .N := by
  unfold cardinalFromBearing
  rw [if_pos (Or.inr (by norm_num))]

lemma cardinalFromBearing_OneEighty_real :
    cardinalFromBearing (180 : ℝ) = .S := by
  unfold cardinalFromBearing
  rw [if_neg (by push_neg; constructor <;> norm_num),
    if_neg (by push_neg; intro h; norm_num),
    if_pos (by constructor <;> norm_num)]

/-! Vehicle mapper lemmas and claim C1. -/

lemma resolveBD_props (bOpt : Option ℝ) (stopId : String)
    (tripId : Option String) (hb : ∀ b ∈ bOpt, 0 ≤ b ∧ b < 360) :
    (0 ≤ (resolveBD bOpt stopId tripId).1 ∧
      (resolveBD bOpt stopId tripId).1 < 360) ∧
    ((resolveBD bOpt stopId tripId).2 ≠ CardinalDirection.UNK →
      (resolveBD bOpt stopId tripId).2 =
        cardinalFromBearing (resolveBD bOpt stopId tripId).1) ∧
    ((resolveBD bOpt stopId tripId).2 = CardinalDirection.UNK →
      (resolveBD bOpt stopId tripId).1 = 0) := by
  rcases bOpt with _ | b
  · unfold resolveBD
    dsimp only
    obtain hd | hd | hd := fallbackDirection_cases (some stopId) tripId <;>
      rw [hd]
    · exact ⟨⟨by norm_num [fallbackBearing], by norm_num [fallbackBearing]⟩,
        fun _ => cardinalFromBearing_zero_real.symm,
        fun h => absurd h (by decide)⟩
    · exact ⟨⟨by norm_num [fallbackBearing], by norm_num [fallbackBearing]⟩,
        fun _ => cardinalFromBearing_OneEighty_real.symm,
        fun h => absurd h (by decide)⟩
    · exact ⟨⟨by norm_num [fallbackBearing], by norm_num [fallbackBearing]⟩,
        fun h => absurd rfl h, fun _ => rfl⟩
  · unfold resolveBD
    dsimp only
    obtain ⟨h1, h2⟩ := hb b rfl
    exact ⟨⟨h1, h2⟩, fun _ => rfl,
      fun h => absurd h (cardinalFromBearing_ne_UNK b)⟩

lemma mapVehicleEntity_props (stations : String → Option (StopCoords ℝ))
    (tidx : List (String × TripUpdate)) (nowMs : ℤ) (e : FeedEntity)
    (v : VehiclePosition ℝ)
    (h : mapVehicleEntity stations tidx nowMs e = some v) :
    (0 ≤ v.bearing ∧ v.bearing < 360) ∧
    (v.direction ≠ CardinalDirection.UNK →
      v.direction = cardinalFromBearing v.bearing) ∧
    (v.direction = CardinalDirection.UNK → v.bearing = 0) := by
  unfold mapVehicleEntity at h
  repeat' split at h
  all_goals try exact Option.noConfusion h
  all_goals
    injection h with hv
    subst hv
    dsimp only
    apply resolveBD_props
    intro b hbmem
    obtain ⟨nc, _, rfl⟩ := Option.map_eq_some'.mp hbmem
    exact computeBearing_bounds _ _ _ _

/-- C1 as amended: every vehicle produced by the system has bearing in
the interval from 0 inclusive to 360 exclusive.  For mapVehiclePositions
the direction is derived from the bearing by the fixed quadrant rule
whenever it is not UNK, and UNK vehicles carry bearing 0.  For
getMockTrains the direction follows the rotated sector rule of the mock
feed (N for bearings below 90 or at least 315, E below 180, S below
270, W otherwise), which differs from the fixed quadrant rule on the
sectors from 45 to 90, 135 to 180 and 225 to 270 degrees. -/
theorem c1_bearing_direction_invariant :
    (∀ (stations : String → Option (StopCoords ℝ)) (nowMs : ℤ)
        (feed : FeedMessage), ∀ v ∈ mapVehiclePositions stations nowMs feed,
      (0 ≤ v.bearing ∧ v.bearing < 360) ∧
      (v.direction ≠ CardinalDirection.UNK →
        v.direction = cardinalFromBearing v.bearing) ∧
      (v.direction = CardinalDirection.UNK → v.bearing = 0)) ∧
    (∀ (α : Type) [LinearOrderedField α] [FloorRing α] (now : ℤ)
        (rand : ℕ → α), ∀ v ∈ getMockTrains now rand,
      (0 ≤ v.bearing ∧ v.bearing < 360) ∧
      ((v.bearing < 90 ∨ 315 ≤ v.bearing) →
        v.direction = CardinalDirection.N) ∧
      (90 ≤ v.bearing ∧ v.bearing < 180 →
        v.direction = CardinalDirection.E) ∧
      (180 ≤ v.bearing ∧ v.bearing < 270 →
        v.direction = CardinalDirection.S) ∧
      (270 ≤ v.bearing ∧ v.bearing < 315 →
        v.direction = CardinalDirection.W)) := by
  constructor
  · intro stations nowMs feed v hv
    unfold mapVehiclePositions at hv
    obtain ⟨e, _, he⟩ := List.mem_filterMap.mp hv
    exact mapVehicleEntity_props stations _ nowMs e v he
  · intro α _ _ now rand v hv
    unfold getMockTrains at hv
    obtain ⟨⟨i, seed⟩, _, rfl⟩ := List.mem_map.mp hv
    dsimp only
    obtain ⟨hb0, hb1⟩ :=
      wrapBearing_bounds ((seed.bearing : α) + (rand (3 * i) - 1/2) * 16)
    refine ⟨⟨hb0, hb1⟩, ?_, ?_, ?_, ?_⟩
    · intro hcond
      rw [if_pos hcond]
    · rintro ⟨ha, hb⟩
      rw [if_neg (by rintro (h | h) <;> linarith), if_pos hb]
    · rintro ⟨ha, hb⟩
      rw [if_neg (by rintro (h | h) <;> linarith),
        if_neg (by linarith), if_pos hb]
    · rintro ⟨ha, hb⟩
      rw [if_neg (by rintro (h | h) <;> linarith),
        if_neg (by linarith), if_neg (by linarith)]

/-- C1 counterexample: a reachable mock train (random draws one eighth
and one half, both inside the unit interval) gets bearing 86 and
direction N from the mock feed's own sector rule, while the fixed
quadrant rule of cardinalFromBearing maps bearing 86 to E — so the mock
fallback does not derive direction from bearing by the fixed quadrant
rule. -/
theorem c1_counterexample :
    ((getMockTrains (α := ℚ) 0 exampleMockRand).get? 1).map
        (fun v => (v.bearing, v.direction, cardinalFromBearing v.bearing)) =
      some (86, CardinalDirection.N, CardinalDirection.E) := by
  have hget : (getMockTrains (α := ℚ) 0 exampleMockRand).get? 1 = some
      { id := "mock-7-1", routeId := "7",
        latitude := 407528/10000 + (exampleMockRand 4 - 1/2) * (9/2000),
        longitude := -739772/10000 + (exampleMockRand 5 - 1/2) * (9/2000),
        bearing := wrapBearing (92 + (exampleMockRand 3 - 1/2) * 16),
        direction :=
          if wrapBearing (92 + (exampleMockRand 3 - 1/2) * 16) < 90 ∨
              315 ≤ wrapBearing (92 + (exampleMockRand 3 - 1/2) * 16) then
            CardinalDirection.N
          else if wrapBearing (92 + (exampleMockRand 3 - 1/2) * 16) < 180 then
            CardinalDirection.E
          else if wrapBearing (92 + (exampleMockRand 3 - 1/2) * 16) < 270 then
            CardinalDirection.S
          else CardinalDirection.W,
        tripId := none, currentStopId := none, lastUpdatedMs := 0 } := rfl
  have harg : (92 : ℚ) + (exampleMockRand 3 - 1/2) * 16 = 86 := by
    show (92 : ℚ) + ((1 : ℚ)/8 - 1/2) * 16 = 86
    norm_num
  have hfloor : ⌊(86 : ℚ) / 360⌋ = 0 := by
    rw [Int.floor_eq_zero_iff, Set.mem_Ico]
    constructor <;> norm_num
  have hbear : wrapBearing ((92 : ℚ) + (exampleMockRand 3 - 1/2) * 16) = 86 := by
    rw [harg]
    unfold wrapBearing jsMod jsTrunc
    rw [if_pos (show (0 : ℚ) ≤ 86 / 360 by norm_num), hfloor]
    norm_num
  rw [hget, Option.map_some']
  dsimp only
  rw [hbear]
  rw [if_pos (Or.inl (show (86 : ℚ) < 90 by norm_num))]
  unfold cardinalFromBearing
  rw [if_neg (by push_neg; constructor <;> norm_num),
    if_pos ⟨by norm_num, by norm_num⟩]

/-- Witness for C1: a concrete feed whose single vehicle takes the
fallback path with no directional hint, producing direction UNK with
bearing 0. -/
theorem c1_bearing_direction_invariant_witness :
    exampleVehicleUNK ∈ mapVehiclePositions exampleStations 0
      exampleFeedVehicleUNK ∧
    (0 ≤ exampleVehicleUNK.bearing ∧ exampleVehicleUNK.bearing < 360) ∧
    exampleVehicleUNK.bearing = 0 := by
  have hmem : exampleVehicleUNK ∈ mapVehiclePositions exampleStations 0
      exampleFeedVehicleUNK := by
    have hlist : mapVehiclePositions exampleStations 0 exampleFeedVehicleUNK =
        [exampleVehicleUNK] := rfl
    rw [hlist]
    exact List.mem_singleton.mpr rfl
  have h := c1_bearing_direction_invariant.1 exampleStations 0
    exampleFeedVehicleUNK exampleVehicleUNK hmem
  exact ⟨hmem, h.1, h.2.2 rfl⟩

end FindMyTrain
